import Mathlib

/-!
Shallow embedding of the MORABLU message ingestion and response-lifecycle
engine (FastAPI + SQLAlchemy source under `app/`), together with proofs of
the specification's testable properties.

Conventions of the embedding:
* SQLAlchemy rows become Lean structures; the database session becomes an
  explicit `Db` value (lists of rows).  Queries become list traversals and
  commits become function results.  Because the session is configured with
  `autoflush=False`, in-run queries see only the snapshot that existed when
  the run began plus explicitly flushed state; the embeddings below mirror
  the exact query/mutation order of each endpoint.
* `datetime` values become `Nat` instants (seconds); `timedelta(days=7)`
  becomes `7 * 86400`.
* HTTP 4xx/5xx aborts become `Except.error`; an abort before `db.commit()`
  leaves the database unchanged.
* External collaborators (IMAP, SMTP, SP-API, the generation model) are
  passed in as explicit arguments describing their outcome for the run.
-/

namespace Morablu

/-- `app/models/account.py` -/
structure Account where
  id : Nat
  name : String
  channel : String
  isActive : Bool := true
deriving Repr, DecidableEq

/-- `app/models/message.py` -/
structure Message where
  id : Nat
  accountId : Nat
  externalOrderId : Option String := none
  externalMessageId : Option String := none
  sender : String
  subject : Option String := none
  body : String := ""
  direction : String
  status : String
  asin : Option String := none
  sku : Option String := none
  productTitle : Option String := none
  replyToAddress : Option String := none
  questionCategory : Option String := none
  receivedAt : Nat := 0
deriving Repr, DecidableEq

/-- `app/models/response.py` (the persisted columns). -/
structure AiResponse where
  id : Nat
  messageId : Nat
  draftBody : String := ""
  finalBody : Option String := none
  aiSuggestedCategory : Option String := none
  isSent : Bool := false
  sentAt : Option Nat := none
deriving Repr, DecidableEq

/-- The relational store: accounts, messages and responses. -/
structure Db where
  accounts : List Account := []
  messages : List Message := []
  responses : List AiResponse := []
deriving Repr, DecidableEq

/-- `db.query(Message).filter(Message.id == mid).first()` -/
def findMessage (db : Db) (mid : Nat) : Option Message :=
  db.messages.find? fun m => decide (m.id = mid)

/-- `db.query(AiResponse).filter(AiResponse.id == rid).first()` -/
def findResponse (db : Db) (rid : Nat) : Option AiResponse :=
  db.responses.find? fun r => decide (r.id = rid)

/-- `db.query(Account).filter(Account.id == aid).first()` -/
def findAccount (db : Db) (aid : Nat) : Option Account :=
  db.accounts.find? fun a => decide (a.id = aid)

/-! ## `app/api/messages.py` -/

/-- The row filter of the bulk update in `mark_handled`: same sender, same
account, inbound, status `new`. -/
def MhGroupNew (m x : Message) : Prop :=
  x.sender = m.sender ∧ x.accountId = m.accountId ∧
    x.direction = "inbound" ∧ x.status = "new"

instance (m x : Message) : Decidable (MhGroupNew m x) := by
  unfold MhGroupNew; infer_instance

/-- The per-row effect of `mark_handled`: the bulk
`update({"status": "handled"})` over the (sender, account) inbound `new`
group, followed by forcing the targeted row itself to `handled`. -/
def mhUpdate (m : Message) (mid : Nat) (x : Message) : Message :=
  let x1 := if MhGroupNew m x then { x with status := "handled" } else x
  if x1.id = mid then { x1 with status := "handled" } else x1

/-- `mark_handled` (`PUT /messages/{id}/handled`): bulk-update every inbound
`new` message of the same (sender, account) group to `handled`, then force
the targeted message itself to `handled`. -/
def markHandled (db : Db) (mid : Nat) : Except String Db :=
  match findMessage db mid with
  | none => .error "Message not found"
  | some m =>
    .ok { db with messages := db.messages.map (mhUpdate m mid) }

/-- `reopen_message` (`PUT /messages/{id}/reopen`): set the targeted message
back to `new`. -/
def reopenMessage (db : Db) (mid : Nat) : Except String Db :=
  match findMessage db mid with
  | none => .error "Message not found"
  | some _ =>
    .ok { db with messages := db.messages.map fun x =>
      if x.id = mid then { x with status := "new" } else x }

/-- The thread-group ordering relation used by `list_messages`:
`order_by(Message.received_at.desc())`. -/
def recvGE (a b : Message) : Prop := b.receivedAt ≤ a.receivedAt

instance : DecidableRel recvGE := fun _ _ => Nat.decLe _ _

instance : IsTotal Message recvGE := ⟨fun a b => Nat.le_total b.receivedAt a.receivedAt⟩

instance : IsTrans Message recvGE := ⟨fun _ _ _ h1 h2 => Nat.le_trans h2 h1⟩

/-- The rows scanned by `list_messages`: inbound messages ordered by
`received_at` descending. -/
def listedMessages (msgs : List Message) : List Message :=
  (msgs.filter fun m => decide (m.direction = "inbound")).insertionSort recvGE

/-- Thread keys `f"{msg.account_id}_{msg.sender}"` in first-appearance
order, as built by the grouping dict in `list_messages`. -/
def threadKeys (l : List Message) : List (Nat × String) :=
  l.foldl (fun ks m =>
    if (m.accountId, m.sender) ∈ ks then ks else ks ++ [(m.accountId, m.sender)]) []

/-- The member list of one thread group, in scan order. -/
def threadOf (l : List Message) (k : Nat × String) : List Message :=
  l.filter fun m => decide (m.accountId = k.1 ∧ m.sender = k.2)

/-- `new_msgs = [m for m in thread_msgs if m.status == "new"];
representative = new_msgs[0] if new_msgs else thread_msgs[0]` -/
def representative (thread : List Message) : Option Message :=
  match thread.filter fun m => decide (m.status = "new") with
  | [] => thread.head?
  | n :: _ => some n

/-- The representatives returned by `list_messages` (pagination omitted). -/
def listMessages (msgs : List Message) : List Message :=
  let l := listedMessages msgs
  (threadKeys l).filterMap fun k => representative (threadOf l k)

/-! ## `app/api/ai.py` -/

/-- The status recomputation of `discard_draft`: `remaining` is the
`db.query(AiResponse)` result for the message excluding the deleted row
(`autoflush=False`, so the deleted row is still visible to the query and
excluded by the `id != response_id` filter). -/
def discardStatus (db : Db) (mid rid : Nat) : String :=
  let remaining := db.responses.filter fun x => decide (x.messageId = mid ∧ x.id ≠ rid)
  if ∃ x ∈ remaining, x.isSent = true then "sent"
  else if ∃ x ∈ remaining, x.isSent = false then "ai_drafted"
  else "new"

/-- `discard_draft` (`DELETE /ai/{response_id}/discard`): reject a sent
response before any mutation; otherwise delete the draft and recompute the
owning message's status from the remaining responses
(`sent` / `ai_drafted` / `new`). -/
def discardDraft (db : Db) (rid : Nat) : Except String Db :=
  match findResponse db rid with
  | none => .error "Response not found"
  | some r =>
    if r.isSent then .error "送信済みの回答は破棄できません"
    else
      let responses' := db.responses.filter fun x => decide (x.id ≠ rid)
      match findMessage db r.messageId with
      | none => .ok { db with responses := responses' }
      | some m =>
        .ok { db with
              responses := responses'
              messages := db.messages.map fun x =>
                if x.id = m.id then { x with status := discardStatus db m.id rid } else x }

/-- `app/services/learning.py` `save_learning_data`: apply a non-empty staff
category correction to the message. -/
def saveLearningData (m : Message) (corrected : Option String) : Message :=
  match corrected with
  | some c =>
    if c ≠ "" ∧ some c ≠ m.questionCategory then { m with questionCategory := some c }
    else m
  | none => m

/-- Collaborator outcomes and fresh row ids consumed by a send operation. -/
structure SendEnv where
  now : Nat
  /-- result of `gmail_sender.send_reply` (SMTP transport outcome) -/
  smtpOk : Bool
  /-- autoincrement id for the outbound `Message` row, when inserted -/
  newMessageId : Nat
  /-- autoincrement id for the `AiResponse` row created by send-direct -/
  newResponseId : Nat

/-- The outbound `Message` row `_send_and_record` inserts after a
successful SMTP delivery. -/
def outboundMessage (db : Db) (m : Message) (finalBody : String) (env : SendEnv) :
    Message :=
  let accountName :=
    match findAccount db m.accountId with
    | some a => a.name
    | none => "MORABLU"
  { id := env.newMessageId
    accountId := m.accountId
    externalOrderId := m.externalOrderId
    externalMessageId := none
    sender := accountName
    subject := some (match m.subject with
      | some s => if s = "" then "Re: Amazon お問い合わせ" else "Re: " ++ s
      | none => "Re: Amazon お問い合わせ")
    body := finalBody
    direction := "outbound"
    status := "sent"
    asin := m.asin
    productTitle := m.productTitle
    replyToAddress := none
    questionCategory := m.questionCategory
    receivedAt := env.now }

/-- `_send_and_record`: skip SMTP when the message has no reply address;
on SMTP success insert the outbound `Message` record; return whether
delivery happened. -/
def sendAndRecord (db : Db) (m : Message) (finalBody : String) (env : SendEnv) :
    Db × Bool :=
  match m.replyToAddress with
  | none => (db, false)
  | some _ =>
    if env.smtpOk then
      ({ db with messages := db.messages ++ [outboundMessage db m finalBody env] }, true)
    else (db, false)

/-- The finalized `AiResponse` row written by `send_response`:
`final_body`, `is_sent` and `sent_at` are set together. -/
def sentResp (r : AiResponse) (finalBody : String) (now : Nat) : AiResponse :=
  { r with finalBody := some finalBody, isSent := true, sentAt := some now }

/-- The message table after a send on message `m`: the target row is set
to `sent` with the learning-feedback category applied. -/
def sendMessages1 (db : Db) (m : Message) (corrected : Option String) :
    List Message :=
  db.messages.map fun x =>
    if x.id = m.id then saveLearningData { m with status := "sent" } corrected else x

/-- The response table after `send_response` finalizes row `rid` and runs
the stale-draft cleanup (same message, different id, unsent). -/
def sendResponses2 (db : Db) (rid : Nat) (r : AiResponse) (m : Message)
    (finalBody : String) (now : Nat) : List AiResponse :=
  (db.responses.map fun x => if x.id = rid then sentResp r finalBody now else x).filter
    fun x => decide (¬(x.messageId = m.id ∧ x.id ≠ rid ∧ x.isSent = false))

/-- The committed state of `send_response` (after stale-draft cleanup,
learning feedback and `_send_and_record`), given the looked-up response
`r` and message `m`. -/
def sendCore (db : Db) (rid : Nat) (r : AiResponse) (m : Message)
    (finalBody : String) (corrected : Option String) (env : SendEnv) :
    Db × AiResponse :=
  let m' := saveLearningData { m with status := "sent" } corrected
  let db1 : Db :=
    { db with
      responses := sendResponses2 db rid r m finalBody env.now
      messages := sendMessages1 db m corrected }
  ((sendAndRecord db1 m' finalBody env).1, sentResp r finalBody env.now)

/-- `send_response` (`PUT /ai/{response_id}/send`): finalize the targeted
response, mark the message `sent`, delete the other unsent drafts of the
same message, record learning feedback, attempt delivery, and commit
regardless of the delivery outcome. -/
def sendResponse (db : Db) (rid : Nat) (finalBody : String)
    (corrected : Option String) (env : SendEnv) :
    Except String (Db × AiResponse) :=
  match findResponse db rid with
  | none => .error "Response not found"
  | some r =>
    match findMessage db r.messageId with
    | none => .error "Message not found"
    | some m => .ok (sendCore db rid r m finalBody corrected env)

/-- The already-sent `AiResponse` row created by `send_direct`:
draft and final text identical. -/
def directResp (m : Message) (finalBody : String) (env : SendEnv) : AiResponse :=
  { id := env.newResponseId
    messageId := m.id
    draftBody := finalBody
    finalBody := some finalBody
    aiSuggestedCategory := m.questionCategory
    isSent := true
    sentAt := some env.now }

/-- The response table after `send_direct` deletes every unsent draft of
the message and inserts the new already-sent row. -/
def directResponses2 (db : Db) (m : Message) (finalBody : String)
    (env : SendEnv) : List AiResponse :=
  (db.responses.filter fun x => decide (¬(x.messageId = m.id ∧ x.isSent = false))) ++
    [directResp m finalBody env]

/-- The committed state of `send_direct`, given the looked-up message. -/
def sendDirectCore (db : Db) (m : Message) (finalBody : String)
    (corrected : Option String) (env : SendEnv) : Db × AiResponse :=
  let m' := saveLearningData { m with status := "sent" } corrected
  let db1 : Db :=
    { db with
      responses := directResponses2 db m finalBody env
      messages := sendMessages1 db m corrected }
  ((sendAndRecord db1 m' finalBody env).1, directResp m finalBody env)

/-- `send_direct` (`POST /ai/send-direct`): delete every unsent draft of the
message, insert a new already-sent response whose draft and final text are
identical, mark the message `sent`, record feedback and attempt delivery. -/
def sendDirect (db : Db) (mid : Nat) (finalBody : String)
    (corrected : Option String) (env : SendEnv) :
    Except String (Db × AiResponse) :=
  match findMessage db mid with
  | none => .error "Message not found"
  | some m => .ok (sendDirectCore db m finalBody corrected env)

/-! ## `app/services/order_info.py` and the generation prompt
(`app/services/ai_responder.py`) -/

/-- One entry of `OrderInfo.items`. -/
structure OrderItem where
  asin : Option String := none
  title : Option String := none
  quantity : Nat := 1
deriving Repr, DecidableEq

/-- `order_info.OrderInfo` (dataclass). -/
structure OrderInfo where
  orderId : String
  status : Option String := none
  statusLabel : Option String := none
  fulfillmentChannel : Option String := none
  shipDate : Option String := none
  trackingNumber : Option String := none
  carrier : Option String := none
  isAvailable : Bool := false
  errorReason : Option String := none
  items : List OrderItem := []
deriving Repr, DecidableEq

/-- Python truthiness of an optional string (`None` and `""` are falsy). -/
def strTruthy : Option String → Bool
  | some s => !(s == "")
  | none => false

/-- `f"{v}"` on an optional value (Python prints `None`). -/
def pyShow (v : Option String) : String := v.getD "None"

/-- `format_order_info_for_prompt`. -/
def formatOrderInfoForPrompt (oi : OrderInfo) : String :=
  if oi.isAvailable = false then
    "注文番号: " ++ oi.orderId ++ "\n" ++
    "注文ステータス: 【未確認】（" ++ pyShow oi.errorReason ++ "）\n" ++
    "※注文の状態が確認できていないため、発送済み・未発送などの断定はしないでください。"
  else
    let lines :=
      ["注文番号: " ++ oi.orderId,
       "注文ステータス: " ++ pyShow oi.statusLabel ++ "（" ++ pyShow oi.status ++ "）"] ++
      (if strTruthy oi.fulfillmentChannel then
        [ "出荷方法: " ++
          (if oi.fulfillmentChannel = some "AFN" then "FBA（Amazon倉庫から発送）" else "自社発送")]
       else []) ++
      (if strTruthy oi.shipDate then ["最終更新日: " ++ pyShow oi.shipDate] else []) ++
      (if strTruthy oi.trackingNumber then ["追跡番号: " ++ pyShow oi.trackingNumber] else []) ++
      (if strTruthy oi.carrier then ["配送業者: " ++ pyShow oi.carrier] else []) ++
      (if oi.items ≠ [] then
        "注文商品:" ::
          (oi.items.map fun it =>
            "  - " ++ it.title.getD "N/A" ++ " (ASIN: " ++ it.asin.getD "N/A" ++ ") x" ++
              toString it.quantity)
       else [])
    String.intercalate "\n" lines

/-- A Q&A template row as passed to the prompt
(`find_relevant_templates` result dict). -/
structure QaTemplateView where
  category : String
  subcategory : Option String := none
  platform : String := "common"
  answerTemplate : String := ""
  staffNotes : Option String := none
deriving Repr, DecidableEq

/-- A past staff resolution as returned by `learning.find_past_responses_*`. -/
structure PastResponse where
  customerQuestion : String
  questionCategory : Option String := none
  staffAnswer : String
  productTitle : Option String := none
deriving Repr, DecidableEq

/-- One `f"...{label}{v}\n"` header line of the prompt, skipped on falsy. -/
def promptLine (label : String) (v : Option String) : String :=
  match v with
  | some s => if s = "" then "" else label ++ s ++ "\n"
  | none => ""

/-- The header of the user prompt (`ai_responder.generate_draft`,
order id through customer message). -/
def promptHeader (customerMessage : String)
    (subject orderId asin productTitle questionCategory : Option String) : String :=
  promptLine "注文番号: " orderId ++
  promptLine "ASIN: " asin ++
  promptLine "商品名: " productTitle ++
  promptLine "質問カテゴリ（AI分類）: " questionCategory ++
  promptLine "件名: " subject ++
  "\nお客様のメッセージ:\n" ++ customerMessage

/-- The order-information section of the prompt: the fetched text when
present, otherwise the explicit 【未確認】 (unconfirmed) block. -/
def orderSection (orderStatusInfo : Option String) : String :=
  if strTruthy orderStatusInfo then
    "\n\n===== 注文情報（SP API Ordersより取得） =====" ++ "\n" ++ pyShow orderStatusInfo
  else
    "\n\n===== 注文情報 =====" ++
    ("\n注文ステータス: 【未確認】" ++
     "\n※注文の状態が確認できていません。発送済み・未発送などの断定はしないでください。")

/-- The product-information section of the prompt. -/
def productSection (productInfo : Option String) : String :=
  if strTruthy productInfo then
    "\n\n===== 該当商品の情報（Amazon商品ページより） =====" ++ "\n" ++ pyShow productInfo
  else ""

/-- The same-product history section of the prompt. -/
def pastProductSection (rs : List PastResponse) : String :=
  if rs = [] then ""
  else
    "\n\n===== この商品の過去対応履歴（スタッフ実績） =====" ++
    String.join (rs.enum.map fun p =>
      "\n\n--- 事例" ++ toString (p.1 + 1) ++ " ---" ++
      "\n顧客の質問: " ++ p.2.customerQuestion ++
      (match p.2.questionCategory with
       | some c => if c = "" then "" else "\nカテゴリ: " ++ c
       | none => "") ++
      "\nスタッフの回答:\n" ++ p.2.staffAnswer)

/-- The Q&A template section of the prompt. -/
def qaSection (ts : List QaTemplateView) : String :=
  if ts = [] then ""
  else
    "\n\n===== 社内Q&Aテンプレート =====" ++
    String.join (ts.map fun t =>
      "\n\n【カテゴリ】" ++ t.category ++
      (match t.subcategory with
       | some s => if s = "" then "" else "\n【種類】" ++ s
       | none => "") ++
      "\n【回答テンプレート】\n" ++ t.answerTemplate ++
      (match t.staffNotes with
       | some s => if s = "" then "" else "\n【スタッフ向けメモ】" ++ s
       | none => ""))

/-- The same-category history section of the prompt. -/
def pastCategorySection (rs : List PastResponse) : String :=
  if rs = [] then ""
  else
    "\n\n===== 同カテゴリの過去対応履歴（参考） =====" ++
    String.join (rs.enum.map fun p =>
      "\n\n--- 参考事例" ++ toString (p.1 + 1) ++ " ---" ++
      (match p.2.productTitle with
       | some t => if t = "" then "" else "\n商品: " ++ t
       | none => "") ++
      "\n顧客の質問: " ++ p.2.customerQuestion ++
      "\nスタッフの回答:\n" ++ p.2.staffAnswer)

/-- `user_content` as assembled by `generate_draft` and handed to the
generation model. -/
def buildUserContent (customerMessage : String)
    (subject orderId asin productTitle questionCategory : Option String)
    (productInfo orderStatusInfo : Option String)
    (qaTemplates : List QaTemplateView)
    (pastProduct pastCategory : List PastResponse) : String :=
  promptHeader customerMessage subject orderId asin productTitle questionCategory ++
  orderSection orderStatusInfo ++
  productSection productInfo ++
  pastProductSection pastProduct ++
  qaSection qaTemplates ++
  pastCategorySection pastCategory ++
  "\n\n上記を踏まえて、お客様への回答案を作成してください。"

/-! ## `app/services/product_catalog.py` -/

/-- `CACHE_TTL_DAYS = 7` -/
def cacheTtlDays : Nat := 7

/-- The dict produced by `_to_dict` and consumed by
`format_product_for_prompt`. -/
structure ProductView where
  asin : String
  title : Option String := none
  brand : Option String := none
  description : Option String := none
  bulletPoints : Option String := none
  productType : Option String := none
  color : Option String := none
  size : Option String := none
  imageUrl : Option String := none
deriving Repr, DecidableEq

/-- A `product_catalog` row (`app/models/product_catalog.py`). -/
structure CatalogEntry where
  asin : String
  title : Option String := none
  brand : Option String := none
  description : Option String := none
  bulletPoints : Option String := none
  productType : Option String := none
  color : Option String := none
  size : Option String := none
  imageUrl : Option String := none
  fetchedAt : Nat := 0
deriving Repr, DecidableEq

/-- `_to_dict`. -/
def toDict (c : CatalogEntry) : ProductView :=
  { asin := c.asin, title := c.title, brand := c.brand,
    description := c.description, bulletPoints := c.bulletPoints,
    productType := c.productType, color := c.color, size := c.size,
    imageUrl := c.imageUrl }

/-- The field dict extracted from a successful SP-API catalog payload
(`_parse_catalog_response`); fields absent from the payload are `none`. -/
structure CatalogData where
  title : Option String := none
  brand : Option String := none
  description : Option String := none
  bulletPoints : Option String := none
  productType : Option String := none
  color : Option String := none
  size : Option String := none
  imageUrl : Option String := none
deriving Repr, DecidableEq

/-- The upsert of `get_product_info` step 3: overwrite the cached columns
with the fetched data and stamp `fetched_at = now`. -/
def applyCatalogData (asin : String) (d : CatalogData) (now : Nat) : CatalogEntry :=
  { asin := asin, title := d.title, brand := d.brand,
    description := d.description, bulletPoints := d.bulletPoints,
    productType := d.productType, color := d.color, size := d.size,
    imageUrl := d.imageUrl, fetchedAt := now }

/-- `get_product_info`, for a single ASIN.  `cache` is the
`ProductCatalog` row for the ASIN (if any), `fetched` the Catalog
Collaborator outcome (`none` = failure / not found / not configured).
Returns the result dict, the new cache row, and the number of collaborator
calls performed. -/
def getProductInfo (cache : Option CatalogEntry) (asin : String) (now : Nat)
    (fetched : Option CatalogData) :
    Option ProductView × Option CatalogEntry × Nat :=
  match cache with
  | some c =>
    if now - c.fetchedAt < cacheTtlDays * 86400 then
      (some (toDict c), some c, 0)
    else
      match fetched with
      | none => (some (toDict c), some c, 1)
      | some d =>
        let c' := applyCatalogData asin d now
        (some (toDict c'), some c', 1)
  | none =>
    match fetched with
    | none => (none, none, 1)
    | some d =>
      let c' := applyCatalogData asin d now
      (some (toDict c'), some c', 1)

/-- `format_product_for_prompt`. -/
def formatProductForPrompt (p : ProductView) : String :=
  let lines :=
    (if strTruthy p.title then ["商品名: " ++ pyShow p.title] else []) ++
    (if strTruthy p.brand then ["ブランド: " ++ pyShow p.brand] else []) ++
    (if strTruthy p.productType then ["カテゴリ: " ++ pyShow p.productType] else []) ++
    (if strTruthy p.color then ["カラー: " ++ pyShow p.color] else []) ++
    (if strTruthy p.size then ["サイズ: " ++ pyShow p.size] else []) ++
    (if strTruthy p.bulletPoints then
      "\n商品の特徴:" ::
        ((pyShow p.bulletPoints).splitOn "\n").filterMap fun bp =>
          if bp.trim = "" then none else some ("  - " ++ bp.trim)
     else []) ++
    (if strTruthy p.description then
      let d := pyShow p.description
      ["\n商品説明:\n" ++ (if d.length > 800 then d.take 800 ++ "..." else d)]
     else [])
  String.intercalate "\n" lines

/-! ## `generate_response` (`POST /ai/generate`)

Note on fidelity: `generate_response` consumes the generator result as a
dict (`result["text"]`, `result.get("input_tokens")`, …) and sets
`input_tokens` / `output_tokens` / `model_used` on the new `AiResponse`,
while `ai_responder.generate_draft` actually returns a bare string and the
`AiResponse` model declares none of those three columns.  The embedding
below renders the success path the endpoint is written against (a
structured result, persisting the declared columns); the mismatch itself
is the subject of claim C8. -/

/-- The structured generator outcome `generate_response` destructures. -/
structure GenResult where
  text : String
  inputTokens : Option Nat := none
  outputTokens : Option Nat := none
  model : Option String := none
deriving Repr, DecidableEq

/-- Step 1 of `generate_response`: the staff-selected category with the
`or "other"` fallback. -/
def genCategory (m : Message) : String :=
  match m.questionCategory with
  | some c => if c = "" then "other" else c
  | none => "other"

/-- Step 2 of `generate_response`: the order-status text, only fetched
when the message carries an order id. -/
def genOrderText (m : Message) (orderFetch : String → OrderInfo) : Option String :=
  match m.externalOrderId with
  | some o => if o = "" then none else some (formatOrderInfoForPrompt (orderFetch o))
  | none => none

/-- Step 3 of `generate_response`: the product-info text from the catalog
lookup, only attempted when the message carries an ASIN. -/
def genProductText (m : Message) (productLookup : Option ProductView) : Option String :=
  if strTruthy m.asin then productLookup.map formatProductForPrompt else none

/-- The product-title backfill of `generate_response` step 3: fill an
empty title from the catalog data. -/
def genTitle (m : Message) (productLookup : Option ProductView) : Option String :=
  if strTruthy m.asin ∧ ¬strTruthy m.productTitle then
    match productLookup with
    | some pd => if strTruthy pd.title then pd.title else m.productTitle
    | none => m.productTitle
  else m.productTitle

/-- The prompt `generate_response` step 7 hands to the generation model. -/
def genPrompt (m : Message) (orderFetch : String → OrderInfo)
    (productLookup : Option ProductView)
    (pastProduct pastCategory : List PastResponse)
    (qaTemplates : List QaTemplateView) : String :=
  buildUserContent m.body m.subject m.externalOrderId m.asin
    (genTitle m productLookup) (some (genCategory m))
    (genProductText m productLookup) (genOrderText m orderFetch)
    qaTemplates pastProduct pastCategory

/-- The draft row persisted on generator success. -/
def genResp (m : Message) (g : GenResult) (newResponseId : Nat) : AiResponse :=
  { id := newResponseId
    messageId := m.id
    draftBody := g.text
    finalBody := none
    aiSuggestedCategory := some (genCategory m)
    isSent := false
    sentAt := none }

/-- The committed state of a successful `generate_response`. -/
def genCore (db : Db) (m : Message) (productLookup : Option ProductView)
    (g : GenResult) (newResponseId : Nat) : Db :=
  { db with
    responses := db.responses ++ [genResp m g newResponseId]
    messages := db.messages.map fun x =>
      if x.id = m.id then
        { m with productTitle := genTitle m productLookup, status := "ai_drafted" }
      else x }

/-- `generate_response`: assemble the evidence prompt, call the generator,
and on success persist a new draft and set the message to `ai_drafted`.
`orderFetch` stands for `get_order_info`, `productLookup` for the
`get_product_info` result on the message's ASIN, the list arguments for the
learning/template queries, and `genOutcome` for the generation-model call
(`none` = provider failure, surfaced as an error with the session rolled
back).  Returns the new state, the created response and the prompt text
handed to the generator. -/
def generateResponse (db : Db) (mid : Nat)
    (orderFetch : String → OrderInfo)
    (productLookup : Option ProductView)
    (pastProduct pastCategory : List PastResponse)
    (qaTemplates : List QaTemplateView)
    (genOutcome : Option GenResult)
    (newResponseId : Nat) :
    Except String (Db × AiResponse × String) :=
  match findMessage db mid with
  | none => .error "Message not found"
  | some m =>
    match genOutcome with
    | none => .error "AI生成エラー"
    | some g =>
      .ok (genCore db m productLookup g newResponseId, genResp m g newResponseId,
        genPrompt m orderFetch productLookup pastProduct pastCategory qaTemplates)

/-! ## `app/services/gmail_fetcher.py` (`_process_emails`)

A raw transport message is modelled by the header data the dedup logic
reads plus the (deterministic) outcome of the direction-appropriate parser
(`_parse_amazon_email` / `_parse_sent_email`). -/

/-- The fields a successful parse extracts (inbound uses all of them;
outbound uses `orderId` and `message`). -/
structure ParsedEmail where
  sender : String := ""
  orderId : Option String := none
  asin : Option String := none
  productTitle : Option String := none
  message : String := ""
  replyTo : Option String := none
deriving Repr, DecidableEq

/-- One candidate message of the mailbox folder. -/
structure REmail where
  /-- decoded `Message-ID` header; `""` when absent -/
  msgId : String := ""
  /-- `parsedate_to_datetime` of the `Date` header; `none` when unparseable -/
  hdrDate : Option Nat := none
  /-- decoded `Subject` header -/
  hdrSubject : String := ""
  /-- outcome of the folder's parser; `none` = parse rejection/failure -/
  parsed : Option ParsedEmail := none
deriving Repr, DecidableEq

/-- The `existing_ids` snapshot: every non-null `external_message_id`
stored for the account. -/
def existingIds (msgs : List Message) (acct : Nat) : List String :=
  msgs.filterMap fun m => if m.accountId = acct then m.externalMessageId else none

/-- The fallback duplicate check for messages without a `Message-ID`:
same account, null identifier, and — when present — same received
timestamp and same subject. -/
def FallbackDup (msgs : List Message) (acct : Nat) (e : REmail) : Prop :=
  ∃ m ∈ msgs, m.accountId = acct ∧ m.externalMessageId = none ∧
    (∀ d, e.hdrDate = some d → m.receivedAt = d) ∧
    (e.hdrSubject ≠ "" → m.subject = some e.hdrSubject)

instance (msgs : List Message) (acct : Nat) (e : REmail) :
    Decidable (FallbackDup msgs acct e) := by
  unfold FallbackDup; infer_instance

/-- The `Message` row persisted for a surviving candidate. -/
def storedMessage (acct : Nat) (acctName : String) (dir : String)
    (e : REmail) (p : ParsedEmail) (now nid : Nat) : Message :=
  if dir = "inbound" then
    { id := nid
      accountId := acct
      externalOrderId := p.orderId
      externalMessageId := if e.msgId = "" then none else some e.msgId
      sender := p.sender
      subject := some e.hdrSubject
      body := p.message
      direction := "inbound"
      status := "new"
      asin := p.asin
      productTitle := p.productTitle
      replyToAddress := p.replyTo
      receivedAt := e.hdrDate.getD now }
  else
    { id := nid
      accountId := acct
      externalOrderId := p.orderId
      externalMessageId := if e.msgId = "" then none else some e.msgId
      sender := acctName
      subject := some e.hdrSubject
      body := p.message
      direction := "outbound"
      status := "sent"
      receivedAt := e.hdrDate.getD now }

/-- Step 1 of `_process_emails`: the bulk header prefetch drops every
candidate whose `Message-ID` is already stored. -/
def headerPrefilter (ex0 : List String) (emails : List REmail) : List REmail :=
  emails.filter fun e => !(decide (e.msgId ≠ "") && decide (e.msgId ∈ ex0))

/-- Step 2 of `_process_emails`: per-candidate re-check (growing in-memory
`existing_ids`), fallback dedup against the session snapshot `db0`
(`autoflush=False`), parse, persist.  Returns the appended rows and the
`(fetched, new_count)` counters. -/
def processLoop (db0 : List Message) (acct : Nat) (acctName dir : String) (now : Nat) :
    List REmail → List String → List Message → Nat → Nat → Nat →
    List Message × Nat × Nat × Nat
  | [], _, acc, f, n, nid => (acc, f, n, nid)
  | e :: es, ex, acc, f, n, nid =>
    if e.msgId ≠ "" ∧ e.msgId ∈ ex then
      processLoop db0 acct acctName dir now es ex acc f n nid
    else if e.msgId = "" ∧ FallbackDup db0 acct e then
      processLoop db0 acct acctName dir now es ex acc f n nid
    else
      match e.parsed with
      | none => processLoop db0 acct acctName dir now es ex acc f n nid
      | some p =>
        let msg := storedMessage acct acctName dir e p now nid
        processLoop db0 acct acctName dir now es
          (if e.msgId = "" then ex else e.msgId :: ex)
          (acc ++ [msg]) (f + 1) (n + 1) (nid + 1)

/-- Result of one `_process_emails` run after commit. -/
structure FetchResult where
  db : List Message
  fetched : Nat
  newCount : Nat
  nextId : Nat
deriving Repr, DecidableEq

/-- `_process_emails` for one account and folder: snapshot the existing
identifiers, header-prefilter, then run the per-candidate loop and commit
the surviving rows. -/
def processEmails (msgs : List Message) (acct : Nat) (acctName dir : String)
    (emails : List REmail) (now nid : Nat) : FetchResult :=
  let ex0 := existingIds msgs acct
  let work := headerPrefilter ex0 emails
  let (acc, f, n, nid') := processLoop msgs acct acctName dir now work ex0 [] 0 0 nid
  ⟨msgs ++ acc, f, n, nid'⟩

/-! ## The public interface as one operation type (for the §3 message
invariant) -/

/-- One operation of the public interface. -/
inductive Op where
  /-- one `_process_emails` run (ingestion) -/
  | ingest (acct : Nat) (acctName dir : String) (emails : List REmail) (now nid : Nat)
  /-- `POST /ai/generate` -/
  | generate (mid : Nat) (orderFetch : String → OrderInfo)
      (productLookup : Option ProductView)
      (pastProduct pastCategory : List PastResponse)
      (qaTemplates : List QaTemplateView)
      (genOutcome : Option GenResult) (newResponseId : Nat)
  /-- `DELETE /ai/{rid}/discard` -/
  | discard (rid : Nat)
  /-- `PUT /ai/{rid}/send` -/
  | send (rid : Nat) (finalBody : String) (corrected : Option String) (env : SendEnv)
  /-- `POST /ai/send-direct` -/
  | sendDir (mid : Nat) (finalBody : String) (corrected : Option String) (env : SendEnv)
  /-- `PUT /messages/{mid}/handled` -/
  | handle (mid : Nat)
  /-- `PUT /messages/{mid}/reopen` -/
  | reopen (mid : Nat)

/-- Run one operation; an aborted request leaves the store unchanged. -/
def applyOp (op : Op) (db : Db) : Db :=
  match op with
  | .ingest acct acctName dir emails now nid =>
    { db with messages := (processEmails db.messages acct acctName dir emails now nid).db }
  | .generate mid ofetch plookup pp pc qa gen nrid =>
    match generateResponse db mid ofetch plookup pp pc qa gen nrid with
    | .ok (db', _, _) => db'
    | .error _ => db
  | .discard rid =>
    match discardDraft db rid with
    | .ok db' => db'
    | .error _ => db
  | .send rid fb cc env =>
    match sendResponse db rid fb cc env with
    | .ok (db', _) => db'
    | .error _ => db
  | .sendDir mid fb cc env =>
    match sendDirect db mid fb cc env with
    | .ok (db', _) => db'
    | .error _ => db
  | .handle mid =>
    match markHandled db mid with
    | .ok db' => db'
    | .error _ => db
  | .reopen mid =>
    match reopenMessage db mid with
    | .ok db' => db'
    | .error _ => db

/-- §3 invariant: outbound messages are always `sent`. -/
def OutboundSent (db : Db) : Prop :=
  ∀ m ∈ db.messages, m.direction = "outbound" → m.status = "sent"

instance (db : Db) : Decidable (OutboundSent db) := by
  unfold OutboundSent; infer_instance

/-- Side condition under which the lifecycle endpoints preserve the
invariant: the operations addressed at a message (or at a response's owning
message) target inbound messages. -/
def OpTargetsInbound (op : Op) (db : Db) : Prop :=
  match op with
  | .generate mid _ _ _ _ _ _ _ =>
    ∀ m ∈ db.messages, m.id = mid → m.direction = "inbound"
  | .discard rid =>
    ∀ r ∈ db.responses, r.id = rid →
      ∀ m ∈ db.messages, m.id = r.messageId → m.direction = "inbound"
  | .handle mid =>
    ∀ m ∈ db.messages, m.id = mid → m.direction = "inbound"
  | .reopen mid =>
    ∀ m ∈ db.messages, m.id = mid → m.direction = "inbound"
  | _ => True

/-! ## Helper lemmas about the send path -/

lemma saveLearningData_eq (m : Message) (cc : Option String) :
    ∃ q, saveLearningData m cc = { m with questionCategory := q } := by
  unfold saveLearningData
  cases cc with
  | none => exact ⟨m.questionCategory, rfl⟩
  | some c =>
    by_cases h : c ≠ "" ∧ some c ≠ m.questionCategory
    · exact ⟨some c, by dsimp only; rw [if_pos h]⟩
    · exact ⟨m.questionCategory, by dsimp only; rw [if_neg h]⟩

lemma sendAndRecord_responses (db : Db) (m : Message) (fb : String) (env : SendEnv) :
    (sendAndRecord db m fb env).1.responses = db.responses := by
  unfold sendAndRecord
  cases m.replyToAddress
  · rfl
  · dsimp only
    split <;> rfl

lemma sendAndRecord_accounts (db : Db) (m : Message) (fb : String) (env : SendEnv) :
    (sendAndRecord db m fb env).1.accounts = db.accounts := by
  unfold sendAndRecord
  cases m.replyToAddress
  · rfl
  · dsimp only
    split <;> rfl

lemma sendAndRecord_messages (db : Db) (m : Message) (fb : String) (env : SendEnv) :
    (sendAndRecord db m fb env).1.messages = db.messages ∨
      (sendAndRecord db m fb env).1.messages =
        db.messages ++ [outboundMessage db m fb env] := by
  unfold sendAndRecord
  cases m.replyToAddress
  · exact Or.inl rfl
  · dsimp only
    split
    · exact Or.inr rfl
    · exact Or.inl rfl

lemma sendAndRecord_delivered (db : Db) (m : Message) (fb : String) (env : SendEnv)
    (h1 : m.replyToAddress ≠ none) (h2 : env.smtpOk = true) :
    sendAndRecord db m fb env =
      ({ db with messages := db.messages ++ [outboundMessage db m fb env] }, true) := by
  unfold sendAndRecord
  cases hrt : m.replyToAddress
  · exact absurd hrt h1
  · dsimp only
    rw [if_pos h2]

lemma sendAndRecord_failed (db : Db) (m : Message) (fb : String) (env : SendEnv)
    (h : m.replyToAddress = none ∨ env.smtpOk = false) :
    sendAndRecord db m fb env = (db, false) := by
  unfold sendAndRecord
  cases hrt : m.replyToAddress
  · rfl
  · dsimp only
    rcases h with h | h
    · rw [hrt] at h
      exact absurd h (by simp)
    · rw [if_neg (by simp [h])]

lemma outboundMessage_direction (db : Db) (m : Message) (fb : String) (env : SendEnv) :
    (outboundMessage db m fb env).direction = "outbound" := rfl

lemma outboundMessage_status (db : Db) (m : Message) (fb : String) (env : SendEnv) :
    (outboundMessage db m fb env).status = "sent" := rfl

lemma findResponse_id (db : Db) (rid : Nat) (r : AiResponse)
    (hr : findResponse db rid = some r) : r.id = rid := by
  have := List.find?_some hr
  simpa using this

lemma findMessage_id (db : Db) (mid : Nat) (m : Message)
    (hm : findMessage db mid = some m) : m.id = mid := by
  have := List.find?_some hm
  simpa using this

lemma findMessage_mem (db : Db) (mid : Nat) (m : Message)
    (hm : findMessage db mid = some m) : m ∈ db.messages :=
  List.mem_of_find?_eq_some hm

/-! ## Claim C5: discard -/

/-- C5.  Discard on a sent AiResponse is rejected before any mutation;
discard on an unsent AiResponse deletes exactly that record and recomputes
the owning Message's status from the remaining responses: `sent` if any
remaining response is sent, else `ai_drafted` if any remaining is unsent,
else `new`. -/
theorem c5_discard_semantics (db : Db) (rid : Nat) (r : AiResponse) (m : Message)
    (hr : findResponse db rid = some r)
    (hm : findMessage db r.messageId = some m) :
    (r.isSent = true →
      discardDraft db rid = .error "送信済みの回答は破棄できません" ∧
      applyOp (.discard rid) db = db) ∧
    (r.isSent = false → ∃ db', discardDraft db rid = .ok db' ∧
      db'.accounts = db.accounts ∧
      (∀ x ∈ db'.responses, x.id ≠ rid) ∧
      (∀ x ∈ db.responses, x.id ≠ rid → x ∈ db'.responses) ∧
      (∀ x ∈ db'.responses, x ∈ db.responses) ∧
      (∀ x ∈ db'.messages, x.id = m.id → x.status =
        (if ∃ y ∈ db'.responses, y.messageId = m.id ∧ y.isSent = true then "sent"
         else if ∃ y ∈ db'.responses, y.messageId = m.id ∧ y.isSent = false then "ai_drafted"
         else "new")) ∧
      (∀ x ∈ db.messages, x.id ≠ m.id → x ∈ db'.messages)) := by
  constructor
  · intro hs
    constructor
    · simp [discardDraft, hr, hs]
    · simp [applyOp, discardDraft, hr, hs]
  · intro hs
    refine ⟨{ db with
        responses := db.responses.filter fun x => decide (x.id ≠ rid)
        messages := db.messages.map fun x =>
          if x.id = m.id then { x with status := discardStatus db m.id rid } else x },
      ?_, rfl, ?_, ?_, ?_, ?_, ?_⟩
    · simp only [discardDraft, hr, hs, hm]
      rfl
    · intro x hx
      simp only [List.mem_filter, decide_eq_true_eq] at hx
      exact hx.2
    · intro x hx hne
      simp only [List.mem_filter, decide_eq_true_eq]
      exact ⟨hx, hne⟩
    · intro x hx
      simp only [List.mem_filter, decide_eq_true_eq] at hx
      exact hx.1
    · intro x hx hid
      simp only [List.mem_map] at hx
      obtain ⟨y, hy, hf⟩ := hx
      by_cases hcase : y.id = m.id
      · subst hf
        simp only [if_pos hcase]
        have hiff1 : (∃ z ∈ db.responses.filter fun x => decide (x.messageId = m.id ∧ x.id ≠ rid),
            z.isSent = true) ↔
            (∃ z ∈ db.responses.filter fun x => decide (x.id ≠ rid),
              z.messageId = m.id ∧ z.isSent = true) := by
          simp only [List.mem_filter, decide_eq_true_eq]
          constructor
          · rintro ⟨z, ⟨hz, hzm, hzr⟩, hzs⟩
            exact ⟨z, ⟨hz, hzr⟩, hzm, hzs⟩
          · rintro ⟨z, ⟨hz, hzr⟩, hzm, hzs⟩
            exact ⟨z, ⟨hz, hzm, hzr⟩, hzs⟩
        have hiff2 : (∃ z ∈ db.responses.filter fun x => decide (x.messageId = m.id ∧ x.id ≠ rid),
            z.isSent = false) ↔
            (∃ z ∈ db.responses.filter fun x => decide (x.id ≠ rid),
              z.messageId = m.id ∧ z.isSent = false) := by
          simp only [List.mem_filter, decide_eq_true_eq]
          constructor
          · rintro ⟨z, ⟨hz, hzm, hzr⟩, hzs⟩
            exact ⟨z, ⟨hz, hzr⟩, hzm, hzs⟩
          · rintro ⟨z, ⟨hz, hzr⟩, hzm, hzs⟩
            exact ⟨z, ⟨hz, hzm, hzr⟩, hzs⟩
        show discardStatus db m.id rid = _
        unfold discardStatus
        rw [if_congr hiff1 rfl rfl, if_congr hiff2 rfl rfl]
      · subst hf
        simp only [if_neg hcase] at hid
        exact absurd hid hcase
    · intro x hx hne
      simp only [List.mem_map]
      exact ⟨x, hx, by simp [fun h : x.id = m.id => hne h]⟩

/-- Spec §8 discard scenario state: one message with one sent and one
unsent AiResponse. -/
def c5msg : Message :=
  { id := 1, accountId := 1, sender := "alice", direction := "inbound", status := "sent" }

def c5sent : AiResponse :=
  { id := 10, messageId := 1, draftBody := "d1", finalBody := some "f1",
    isSent := true, sentAt := some 5 }

def c5draft : AiResponse := { id := 11, messageId := 1, draftBody := "d2" }

def c5db : Db :=
  { accounts := [⟨1, "MORABLU", "amazon", true⟩], messages := [c5msg],
    responses := [c5sent, c5draft] }

def c5post : Db :=
  { accounts := [⟨1, "MORABLU", "amazon", true⟩], messages := [c5msg],
    responses := [c5sent] }

/-- Witness for C5: discarding the unsent draft of a message that also has
a sent response deletes just the draft and leaves the status `sent`. -/
theorem c5_discard_semantics_witness :
    ∃ db', discardDraft c5db 11 = Except.ok db' ∧
      (∀ x ∈ db'.messages, x.id = 1 → x.status = "sent") ∧
      (∀ x ∈ db'.responses, x.id ≠ 11) := by
  obtain ⟨db', heq, -, -, -, -, -, -⟩ :=
    (c5_discard_semantics c5db 11 c5draft c5msg rfl rfl).2 rfl
  have hpost : discardDraft c5db 11 = Except.ok c5post := rfl
  rw [heq] at hpost
  injection hpost with hdb
  subst hdb
  exact ⟨c5post, heq, by decide, by decide⟩

/-! ## Claim C3: handled-cascade and reopen -/

/-- Because the bulk update changes only `status`, the two-step per-row
effect of `mark_handled` collapses to a single conditional. -/
lemma mhUpdate_eq (m : Message) (mid : Nat) (x : Message) :
    mhUpdate m mid x =
      if x.id = mid ∨ MhGroupNew m x then { x with status := "handled" } else x := by
  unfold mhUpdate
  by_cases hg : MhGroupNew m x <;> by_cases hi : x.id = mid <;>
    simp [hg, hi]

/-- C3.  Marking a message of an inbound (account, sender) group handled
sets every `new` member of the group to `handled` (leaving zero `new`
members), forces the target itself to `handled` whatever its prior status,
and changes nothing else; reopen resets exactly the targeted message to
`new` and changes nothing else. -/
theorem c3_handled_cascade (db : Db) (mid : Nat) (m : Message)
    (hm : findMessage db mid = some m) (_hdir : m.direction = "inbound") :
    (∃ db', markHandled db mid = .ok db' ∧
      db'.accounts = db.accounts ∧ db'.responses = db.responses ∧
      (∀ x ∈ db'.messages,
        x.accountId = m.accountId → x.sender = m.sender → x.direction = "inbound" →
          x.status ≠ "new") ∧
      (∀ x ∈ db'.messages, x.id = mid → x.status = "handled") ∧
      (∀ x ∈ db.messages, x.sender = m.sender → x.accountId = m.accountId →
        x.direction = "inbound" → x.status = "new" →
          { x with status := "handled" } ∈ db'.messages) ∧
      (∀ x ∈ db.messages, x.id ≠ mid →
        ¬(x.sender = m.sender ∧ x.accountId = m.accountId ∧
          x.direction = "inbound" ∧ x.status = "new") →
        x ∈ db'.messages)) ∧
    (∀ (db2 : Db) (mid2 : Nat) (m2 : Message), findMessage db2 mid2 = some m2 →
      ∃ db2', reopenMessage db2 mid2 = .ok db2' ∧
        db2'.accounts = db2.accounts ∧ db2'.responses = db2.responses ∧
        (∀ x ∈ db2'.messages, x.id = mid2 → x.status = "new") ∧
        (∀ x ∈ db2.messages, x.id = mid2 → { x with status := "new" } ∈ db2'.messages) ∧
        (∀ x ∈ db2.messages, x.id ≠ mid2 → x ∈ db2'.messages)) := by
  constructor
  · refine ⟨{ db with messages := db.messages.map (mhUpdate m mid) },
      by simp only [markHandled, hm], rfl, rfl, ?_, ?_, ?_, ?_⟩
    · intro x hx hacct hsend hdirx
      simp only [List.mem_map] at hx
      obtain ⟨y, hy, hf⟩ := hx
      subst hf
      rw [mhUpdate_eq] at hacct hsend hdirx ⊢
      split at hacct <;> rename_i hcond
      · rw [if_pos hcond]
        simp
      · rw [if_neg hcond] at hsend hdirx ⊢
        intro hnew
        exact hcond (Or.inr ⟨hsend, hacct, hdirx, hnew⟩)
    · intro x hx hid
      simp only [List.mem_map] at hx
      obtain ⟨y, hy, hf⟩ := hx
      subst hf
      rw [mhUpdate_eq] at hid ⊢
      split at hid <;> rename_i hcond
      · rw [if_pos hcond]
      · rw [if_neg hcond]
        exact absurd (Or.inl hid) hcond
    · intro x hx hsend hacct hdirx hnew
      simp only [List.mem_map]
      refine ⟨x, hx, ?_⟩
      rw [mhUpdate_eq, if_pos (Or.inr ⟨hsend, hacct, hdirx, hnew⟩)]
    · intro x hx hne hcond
      simp only [List.mem_map]
      refine ⟨x, hx, ?_⟩
      rw [mhUpdate_eq, if_neg]
      rintro (h | h)
      · exact hne h
      · exact hcond h
  · intro db2 mid2 m2 hm2
    refine ⟨{ db2 with messages := db2.messages.map fun x =>
        if x.id = mid2 then { x with status := "new" } else x },
      by simp only [reopenMessage, hm2], rfl, rfl, ?_, ?_, ?_⟩
    · intro x hx hid
      simp only [List.mem_map] at hx
      obtain ⟨y, hy, hf⟩ := hx
      subst hf
      split at hid <;> simp_all
    · intro x hx hid
      simp only [List.mem_map]
      exact ⟨x, hx, by rw [if_pos hid]⟩
    · intro x hx hne
      simp only [List.mem_map]
      exact ⟨x, hx, by rw [if_neg hne]⟩

/-- A three-message store: two `new` messages from the same customer plus
one from another customer, exercising the handled-cascade. -/
def c3db : Db :=
  { accounts := [⟨1, "MORABLU", "amazon", true⟩]
    messages :=
      [{ id := 1, accountId := 1, sender := "alice", direction := "inbound",
         status := "ai_drafted", receivedAt := 10 },
       { id := 2, accountId := 1, sender := "alice", direction := "inbound",
         status := "new", receivedAt := 20 },
       { id := 3, accountId := 1, sender := "bob", direction := "inbound",
         status := "new", receivedAt := 30 }]
    responses := [] }

/-- Witness for C3: marking message 1 handled cascades to message 2 (same
group, `new`) but leaves bob's message 3 untouched; reopening message 2
afterwards only touches message 2. -/
theorem c3_handled_cascade_witness :
    (∃ db', markHandled c3db 1 = Except.ok db' ∧
      (∀ x ∈ db'.messages, x.id = 1 → x.status = "handled") ∧
      (∀ x ∈ db'.messages, x.id = 2 → x.status = "handled") ∧
      (∀ x ∈ db'.messages, x.id = 3 → x.status = "new")) ∧
    (∃ db2', reopenMessage c3db 2 = Except.ok db2' ∧
      (∀ x ∈ db2'.messages, x.id = 2 → x.status = "new") ∧
      (∀ x ∈ db2'.messages, x.id = 1 → x.status = "ai_drafted")) := by
  obtain ⟨⟨db', heq, -, -, -, -, -, -⟩, hre⟩ :=
    c3_handled_cascade c3db 1
      { id := 1, accountId := 1, sender := "alice", direction := "inbound",
        status := "ai_drafted", receivedAt := 10 }
      rfl rfl
  obtain ⟨db2', heq2, -, -, -, -, -⟩ :=
    hre c3db 2
      { id := 2, accountId := 1, sender := "alice", direction := "inbound",
        status := "new", receivedAt := 20 }
      rfl
  constructor
  · have hpost : markHandled c3db 1 = Except.ok
        { accounts := [⟨1, "MORABLU", "amazon", true⟩]
          messages :=
            [{ id := 1, accountId := 1, sender := "alice", direction := "inbound",
               status := "handled", receivedAt := 10 },
             { id := 2, accountId := 1, sender := "alice", direction := "inbound",
               status := "handled", receivedAt := 20 },
             { id := 3, accountId := 1, sender := "bob", direction := "inbound",
               status := "new", receivedAt := 30 }]
          responses := [] } := rfl
    exact ⟨_, hpost, by decide, by decide, by decide⟩
  · have hpost2 : reopenMessage c3db 2 = Except.ok
        { accounts := [⟨1, "MORABLU", "amazon", true⟩]
          messages :=
            [{ id := 1, accountId := 1, sender := "alice", direction := "inbound",
               status := "ai_drafted", receivedAt := 10 },
             { id := 2, accountId := 1, sender := "alice", direction := "inbound",
               status := "new", receivedAt := 20 },
             { id := 3, accountId := 1, sender := "bob", direction := "inbound",
               status := "new", receivedAt := 30 }]
          responses := [] } := rfl
    exact ⟨_, hpost2, by decide, by decide⟩

/-! ## Claim C9: product fact cache -/

/-- C9.  While a cache entry is younger than the 7-day freshness window,
two consecutive lookups (the second running on the state left by the
first) return the identical fact record and make zero collaborator calls —
in particular at most one; and when the entry is stale and the collaborator
call fails, the lookup returns the stale entry rather than no facts, and
keeps it cached. -/
theorem c9_cache_fresh_and_stale (c : CatalogEntry) (a : String)
    (now1 now2 nowS : Nat) (f1 f2 : Option CatalogData)
    (h1 : now1 - c.fetchedAt < cacheTtlDays * 86400)
    (h2 : now2 - c.fetchedAt < cacheTtlDays * 86400) :
    (getProductInfo (some c) a now1 f1 = (some (toDict c), some c, 0) ∧
      getProductInfo (getProductInfo (some c) a now1 f1).2.1 a now2 f2 =
        (some (toDict c), some c, 0)) ∧
    (¬ nowS - c.fetchedAt < cacheTtlDays * 86400 →
      getProductInfo (some c) a nowS none = (some (toDict c), some c, 1)) := by
  have hfst : getProductInfo (some c) a now1 f1 = (some (toDict c), some c, 0) := by
    simp only [getProductInfo, if_pos h1]
  refine ⟨⟨hfst, ?_⟩, ?_⟩
  · rw [hfst]
    simp only [getProductInfo, if_pos h2]
  · intro hstale
    simp only [getProductInfo, if_neg hstale]

/-- A concrete cache entry fetched at instant 1000. -/
def c9entry : CatalogEntry :=
  { asin := "B0EXAMPLE01", title := some "widget", fetchedAt := 1000 }

/-- Send or Send-direct leaves every message row carrying the target id
with status `sent`, whatever the delivery outcome. -/
lemma send_message_status (db1 : Db) (m' : Message) (fb : String) (env : SendEnv)
    (tid : Nat)
    (hmap : ∀ x ∈ db1.messages, x.id = tid → x.status = "sent") :
    ∀ x ∈ (sendAndRecord db1 m' fb env).1.messages, x.id = tid → x.status = "sent" := by
  intro x hx hid
  rcases sendAndRecord_messages db1 m' fb env with h | h
  · rw [h] at hx
    exact hmap x hx hid
  · rw [h] at hx
    rcases List.mem_append.mp hx with hx | hx
    · exact hmap x hx hid
    · rw [List.mem_singleton.mp hx]
      rfl

/-! ## Claim C7: delivery failure does not roll back the send -/

/-- C7.  For every Send and Send-direct, whatever the SMTP outcome and
whether or not a reply address exists, the operation completes without
error, the targeted (or newly created) AiResponse ends with `final_body`
set, `is_sent = true` and `sent_at` set, and the message status ends
`sent`.  The quantification over `env` (any `smtpOk`, any reply address on
the message) is exactly the claim: the committed sent state does not
depend on the delivery outcome. -/
theorem c7_delivery_failure_no_rollback (db : Db) (rid mid : Nat)
    (fb fd : String) (cc cd : Option String) (env envd : SendEnv)
    (r : AiResponse) (m md : Message)
    (hr : findResponse db rid = some r)
    (hm : findMessage db r.messageId = some m)
    (hmd : findMessage db mid = some md) :
    (∃ dbOut, sendResponse db rid fb cc env = Except.ok (dbOut, sentResp r fb env.now) ∧
      (sentResp r fb env.now).finalBody = some fb ∧
      (sentResp r fb env.now).isSent = true ∧
      (sentResp r fb env.now).sentAt = some env.now ∧
      (∀ x ∈ dbOut.responses, x.id = rid → x = sentResp r fb env.now) ∧
      (∀ x ∈ dbOut.messages, x.id = m.id → x.status = "sent")) ∧
    (∃ dbOut, sendDirect db mid fd cd envd = Except.ok (dbOut, directResp md fd envd) ∧
      (directResp md fd envd).finalBody = some fd ∧
      (directResp md fd envd).isSent = true ∧
      (directResp md fd envd).sentAt = some envd.now ∧
      directResp md fd envd ∈ dbOut.responses ∧
      (∀ x ∈ dbOut.messages, x.id = md.id → x.status = "sent")) := by
  have hrid := findResponse_id db rid r hr
  constructor
  · refine ⟨(sendCore db rid r m fb cc env).1, ?_, rfl, rfl, rfl, ?_, ?_⟩
    · simp only [sendResponse, hr, hm]
      rfl
    · unfold sendCore
      dsimp only
      rw [sendAndRecord_responses]
      intro x hx hid
      have hx' := List.mem_of_mem_filter hx
      obtain ⟨y, hy, hf⟩ := List.mem_map.mp hx'
      by_cases hcase : y.id = rid
      · rw [if_pos hcase] at hf
        exact hf.symm
      · rw [if_neg hcase] at hf
        exact absurd (hf ▸ hid) hcase
    · unfold sendCore
      dsimp only
      apply send_message_status
      intro x hx hid
      obtain ⟨y, hy, hf⟩ := List.mem_map.mp hx
      by_cases hcase : y.id = m.id
      · rw [if_pos hcase] at hf
        obtain ⟨q, hq⟩ := saveLearningData_eq { m with status := "sent" } cc
        rw [← hf, hq]
      · rw [if_neg hcase] at hf
        exact absurd (hf ▸ hid) hcase
  · refine ⟨(sendDirectCore db md fd cd envd).1, ?_, rfl, rfl, rfl, ?_, ?_⟩
    · simp only [sendDirect, hmd]
      rfl
    · unfold sendDirectCore
      dsimp only
      rw [sendAndRecord_responses]
      exact List.mem_append_right _ (List.mem_singleton_self _)
    · unfold sendDirectCore
      dsimp only
      apply send_message_status
      intro x hx hid
      obtain ⟨y, hy, hf⟩ := List.mem_map.mp hx
      by_cases hcase : y.id = md.id
      · rw [if_pos hcase] at hf
        obtain ⟨q, hq⟩ := saveLearningData_eq { md with status := "sent" } cd
        rw [← hf, hq]
      · rw [if_neg hcase] at hf
        exact absurd (hf ▸ hid) hcase

/-- A drafted message with no reply address, so channel delivery cannot
happen. -/
def c7msg : Message :=
  { id := 1, accountId := 1, sender := "alice", direction := "inbound",
    status := "ai_drafted", replyToAddress := none }

def c7resp : AiResponse := { id := 10, messageId := 1, draftBody := "d" }

def c7db : Db :=
  { accounts := [⟨1, "MORABLU", "amazon", true⟩], messages := [c7msg],
    responses := [c7resp] }

/-- Delivery environment where SMTP also fails. -/
def c7env : SendEnv := ⟨100, false, 90, 91⟩

/-- Witness for C7: sending with no reply address and failed SMTP still
commits the response as sent and the message as `sent`. -/
theorem c7_delivery_failure_no_rollback_witness :
    ∃ dbOut, sendResponse c7db 10 "final" none c7env =
        Except.ok (dbOut, sentResp c7resp "final" 100) ∧
      (∀ x ∈ dbOut.messages, x.id = 1 → x.status = "sent") ∧
      (∀ x ∈ dbOut.responses, x.id = 10 → x.isSent = true) := by
  obtain ⟨⟨dbOut, heq, -, -, -, hresp, hmsg⟩, -⟩ :=
    c7_delivery_failure_no_rollback c7db 10 1 "final" "fd" none none c7env c7env
      c7resp c7msg c7msg rfl rfl rfl
  refine ⟨dbOut, heq, hmsg, ?_⟩
  intro x hx hid
  rw [hresp x hx hid]
  rfl

lemma findAccount_congr (db1 db2 : Db) (aid : Nat)
    (h : db1.accounts = db2.accounts) : findAccount db1 aid = findAccount db2 aid := by
  unfold findAccount
  rw [h]

lemma outboundMessage_sender (db : Db) (m : Message) (fb : String) (env : SendEnv)
    (a : Account) (ha : findAccount db m.accountId = some a) :
    (outboundMessage db m fb env).sender = a.name := by
  unfold outboundMessage
  dsimp only
  rw [ha]

/-! ## Claim C10: the outbound thread record is inserted iff delivery
succeeded -/

/-- C10.  After Send (and likewise Send-direct), a new outbound `Message`
(direction `outbound`, status `sent`, body the finalized text, sender the
account name, same account and order) is appended iff channel delivery
succeeded; with no reply address or failed SMTP, no outbound row is
created although the AiResponse is still committed as sent. -/
theorem c10_outbound_iff_delivered (db : Db) (rid mid : Nat)
    (fb fd : String) (cc cd : Option String) (env envd : SendEnv)
    (r : AiResponse) (m md : Message) (a ad : Account)
    (hr : findResponse db rid = some r)
    (hm : findMessage db r.messageId = some m)
    (ha : findAccount db m.accountId = some a)
    (hmd : findMessage db mid = some md)
    (had : findAccount db md.accountId = some ad) :
    ((m.replyToAddress ≠ none ∧ env.smtpOk = true) →
      ∃ dbOut ob, sendResponse db rid fb cc env = Except.ok (dbOut, sentResp r fb env.now) ∧
        dbOut.messages = sendMessages1 db m cc ++ [ob] ∧
        ob.direction = "outbound" ∧ ob.status = "sent" ∧ ob.body = fb ∧
        ob.sender = a.name ∧ ob.accountId = m.accountId ∧
        ob.externalOrderId = m.externalOrderId) ∧
    ((m.replyToAddress = none ∨ env.smtpOk = false) →
      ∃ dbOut, sendResponse db rid fb cc env = Except.ok (dbOut, sentResp r fb env.now) ∧
        dbOut.messages = sendMessages1 db m cc ∧
        (∀ x ∈ dbOut.responses, x.id = rid → x = sentResp r fb env.now)) ∧
    ((md.replyToAddress ≠ none ∧ envd.smtpOk = true) →
      ∃ dbOut ob, sendDirect db mid fd cd envd = Except.ok (dbOut, directResp md fd envd) ∧
        dbOut.messages = sendMessages1 db md cd ++ [ob] ∧
        ob.direction = "outbound" ∧ ob.status = "sent" ∧ ob.body = fd ∧
        ob.sender = ad.name ∧ ob.accountId = md.accountId ∧
        ob.externalOrderId = md.externalOrderId) ∧
    ((md.replyToAddress = none ∨ envd.smtpOk = false) →
      ∃ dbOut, sendDirect db mid fd cd envd = Except.ok (dbOut, directResp md fd envd) ∧
        dbOut.messages = sendMessages1 db md cd ∧
        directResp md fd envd ∈ dbOut.responses) := by
  obtain ⟨q, hq⟩ := saveLearningData_eq { m with status := "sent" } cc
  obtain ⟨qd, hqd⟩ := saveLearningData_eq { md with status := "sent" } cd
  have hrt : (saveLearningData { m with status := "sent" } cc).replyToAddress =
      m.replyToAddress := by rw [hq]
  have hrtd : (saveLearningData { md with status := "sent" } cd).replyToAddress =
      md.replyToAddress := by rw [hqd]
  have hacc : (saveLearningData { m with status := "sent" } cc).accountId =
      m.accountId := by rw [hq]
  have haccd : (saveLearningData { md with status := "sent" } cd).accountId =
      md.accountId := by rw [hqd]
  refine ⟨?_, ?_, ?_, ?_⟩
  · rintro ⟨h1, h2⟩
    refine ⟨(sendCore db rid r m fb cc env).1,
      outboundMessage
        { db with responses := sendResponses2 db rid r m fb env.now
                  messages := sendMessages1 db m cc }
        (saveLearningData { m with status := "sent" } cc) fb env,
      by simp only [sendResponse, hr, hm]; rfl, ?_, rfl, rfl, rfl, ?_, ?_, ?_⟩
    · unfold sendCore
      dsimp only
      rw [sendAndRecord_delivered _ _ _ _ (by rw [hrt]; exact h1) h2]
    · exact outboundMessage_sender _ _ _ _ a (by rw [hacc]; exact ha)
    · exact hacc
    · show (saveLearningData { m with status := "sent" } cc).externalOrderId =
        m.externalOrderId
      rw [hq]
  · intro h
    refine ⟨(sendCore db rid r m fb cc env).1, by simp only [sendResponse, hr, hm]; rfl,
      ?_, ?_⟩
    · unfold sendCore
      dsimp only
      rw [sendAndRecord_failed]
      rcases h with h | h
      · exact Or.inl (by rw [hrt]; exact h)
      · exact Or.inr h
    · unfold sendCore
      dsimp only
      rw [sendAndRecord_responses]
      unfold sendResponses2
      intro x hx hid
      have hx' := List.mem_of_mem_filter hx
      obtain ⟨y, hy, hf⟩ := List.mem_map.mp hx'
      by_cases hcase : y.id = rid
      · rw [if_pos hcase] at hf
        exact hf.symm
      · rw [if_neg hcase] at hf
        exact absurd (hf ▸ hid) hcase
  · rintro ⟨h1, h2⟩
    refine ⟨(sendDirectCore db md fd cd envd).1,
      outboundMessage
        { db with responses := directResponses2 db md fd envd
                  messages := sendMessages1 db md cd }
        (saveLearningData { md with status := "sent" } cd) fd envd,
      by simp only [sendDirect, hmd]; rfl, ?_, rfl, rfl, rfl, ?_, ?_, ?_⟩
    · unfold sendDirectCore
      dsimp only
      rw [sendAndRecord_delivered _ _ _ _ (by rw [hrtd]; exact h1) h2]
    · exact outboundMessage_sender _ _ _ _ ad (by rw [haccd]; exact had)
    · exact haccd
    · show (saveLearningData { md with status := "sent" } cd).externalOrderId =
        md.externalOrderId
      rw [hqd]
  · intro h
    refine ⟨(sendDirectCore db md fd cd envd).1, by simp only [sendDirect, hmd]; rfl,
      ?_, ?_⟩
    · unfold sendDirectCore
      dsimp only
      rw [sendAndRecord_failed]
      rcases h with h | h
      · exact Or.inl (by rw [hrtd]; exact h)
      · exact Or.inr h
    · unfold sendDirectCore
      dsimp only
      rw [sendAndRecord_responses]
      unfold directResponses2
      exact List.mem_append_right _ (List.mem_singleton_self _)

/-- A message with a reply address, so delivery can succeed or fail on the
SMTP outcome alone. -/
def c10msg : Message :=
  { id := 1, accountId := 1, sender := "alice", direction := "inbound",
    status := "ai_drafted", externalOrderId := some "503-1234567-8901234",
    replyToAddress := some "x@marketplace.amazon.co.jp" }

def c10resp : AiResponse := { id := 10, messageId := 1, draftBody := "d" }

def c10db : Db :=
  { accounts := [⟨1, "MORABLU", "amazon", true⟩], messages := [c10msg],
    responses := [c10resp] }

def c10envOk : SendEnv := ⟨200, true, 2, 11⟩

def c10envBad : SendEnv := ⟨200, false, 2, 11⟩

/-- Witness for C10: with SMTP success the outbound row (direction
`outbound`, status `sent`, body the final text, sender the account name)
is appended; with SMTP failure no row is appended. -/
theorem c10_outbound_iff_delivered_witness :
    (∃ dbOut ob, sendResponse c10db 10 "text" none c10envOk =
        Except.ok (dbOut, sentResp c10resp "text" 200) ∧
      dbOut.messages = sendMessages1 c10db c10msg none ++ [ob] ∧
      ob.direction = "outbound" ∧ ob.status = "sent" ∧ ob.body = "text" ∧
      ob.sender = "MORABLU") ∧
    (∃ dbOut, sendResponse c10db 10 "text" none c10envBad =
        Except.ok (dbOut, sentResp c10resp "text" 200) ∧
      dbOut.messages = sendMessages1 c10db c10msg none) := by
  obtain ⟨hok, -, -, -⟩ :=
    c10_outbound_iff_delivered c10db 10 1 "text" "t2" none none c10envOk c10envOk
      c10resp c10msg c10msg ⟨1, "MORABLU", "amazon", true⟩ ⟨1, "MORABLU", "amazon", true⟩
      rfl rfl rfl rfl rfl
  obtain ⟨-, hbad, -, -⟩ :=
    c10_outbound_iff_delivered c10db 10 1 "text" "t2" none none c10envBad c10envBad
      c10resp c10msg c10msg ⟨1, "MORABLU", "amazon", true⟩ ⟨1, "MORABLU", "amazon", true⟩
      rfl rfl rfl rfl rfl
  obtain ⟨dbOut, ob, heq, hmsgs, hd, hs, hb, hsend, -, -⟩ := hok ⟨by decide, rfl⟩
  obtain ⟨dbOut2, heq2, hmsgs2, -⟩ := hbad (Or.inr rfl)
  exact ⟨⟨dbOut, ob, heq, hmsgs, hd, hs, hb, hsend⟩, ⟨dbOut2, heq2, hmsgs2⟩⟩

/-! ## Claim C2: the outbound-implies-sent invariant -/

lemma findResponse_mem (db : Db) (rid : Nat) (r : AiResponse)
    (hr : findResponse db rid = some r) : r ∈ db.responses :=
  List.mem_of_find?_eq_some hr

/-- Every row persisted by the ingestion loop with direction `outbound`
has status `sent` (inbound rows get `new`). -/
lemma storedMessage_outbound_sent (acct : Nat) (an dir : String) (e : REmail)
    (p : ParsedEmail) (now nid : Nat) :
    (storedMessage acct an dir e p now nid).direction = "outbound" →
    (storedMessage acct an dir e p now nid).status = "sent" := by
  unfold storedMessage
  split
  · intro h
    have hne : ("inbound" : String) ≠ "outbound" := by decide
    exact absurd h hne
  · intro _
    rfl

/-- Every row the step-2 loop accumulates beyond its input accumulator is
a `storedMessage`. -/
lemma processLoop_acc_shape (db0 : List Message) (acct : Nat) (an dir : String)
    (now : Nat) :
    ∀ (es : List REmail) (ex : List String) (acc : List Message) (f n nid : Nat),
      ∀ x ∈ (processLoop db0 acct an dir now es ex acc f n nid).1,
        x ∈ acc ∨ ∃ e p k, x = storedMessage acct an dir e p now k := by
  intro es
  induction es with
  | nil =>
    intro ex acc f n nid x hx
    exact Or.inl hx
  | cons e es ih =>
    intro ex acc f n nid x hx
    unfold processLoop at hx
    split at hx
    · exact ih _ _ _ _ _ x hx
    · split at hx
      · exact ih _ _ _ _ _ x hx
      · rcases hp : e.parsed with _ | p
        · rw [hp] at hx
          exact ih _ _ _ _ _ x hx
        · rw [hp] at hx
          dsimp only at hx
          rcases ih _ _ _ _ _ x hx with h | h
          · rcases List.mem_append.mp h with h | h
            · exact Or.inl h
            · exact Or.inr ⟨e, p, nid, List.mem_singleton.mp h⟩
          · exact Or.inr h

/-- C2 as amended.  The invariant "direction `outbound` implies status
`sent`" is preserved by every operation of the public interface, provided
the message-targeted operations (generate, discard, mark-handled, reopen)
are applied to inbound messages — as the UI does, since the listing only
shows inbound messages.  Reopen applied to an outbound message breaks the
invariant (see the counterexample). -/
theorem c2_outbound_sent_preserved (op : Op) (db : Db)
    (hInv : OutboundSent db) (hT : OpTargetsInbound op db) :
    OutboundSent (applyOp op db) := by
  cases op with
  | ingest acct an dir emails now nid =>
    intro x hx hdir
    have hx' : x ∈ db.messages ++ (processLoop db.messages acct an dir now
        (headerPrefilter (existingIds db.messages acct) emails)
        (existingIds db.messages acct) [] 0 0 nid).1 := hx
    rcases List.mem_append.mp hx' with h | h
    · exact hInv x h hdir
    · rcases processLoop_acc_shape db.messages acct an dir now _ _ _ _ _ _ x h with
        h | ⟨e, p, k, hxe⟩
      · cases h
      · subst hxe
        exact storedMessage_outbound_sent acct an dir e p now k hdir
  | generate mid ofetch plookup pp pc qa gen nrid =>
    rcases hfm : findMessage db mid with _ | m
    · have hred : applyOp (.generate mid ofetch plookup pp pc qa gen nrid) db = db := by
        simp [applyOp, generateResponse, hfm]
      rw [hred]
      exact hInv
    · cases gen with
      | none =>
        have hred : applyOp (.generate mid ofetch plookup pp pc qa none nrid) db = db := by
          simp [applyOp, generateResponse, hfm]
        rw [hred]
        exact hInv
      | some g =>
        have hred : applyOp (.generate mid ofetch plookup pp pc qa (some g) nrid) db =
            genCore db m plookup g nrid := by
          simp [applyOp, generateResponse, hfm]
        rw [hred]
        intro x hx hdir
        obtain ⟨y, hy, hf⟩ := List.mem_map.mp hx
        by_cases hcase : y.id = m.id
        · rw [if_pos hcase] at hf
          have hmdir : m.direction = "inbound" :=
            hT m (findMessage_mem db mid m hfm) (findMessage_id db mid m hfm)
          have : m.direction = "outbound" := by
            rw [← hf] at hdir
            exact hdir
          rw [hmdir] at this
          exact absurd this (by decide)
        · rw [if_neg hcase] at hf
          exact hInv x (hf ▸ hy) hdir
  | discard rid =>
    rcases hfr : findResponse db rid with _ | r
    · have hred : applyOp (.discard rid) db = db := by
        simp [applyOp, discardDraft, hfr]
      rw [hred]
      exact hInv
    · by_cases hsent : r.isSent
      · have hred : applyOp (.discard rid) db = db := by
          simp [applyOp, discardDraft, hfr, hsent]
        rw [hred]
        exact hInv
      · rcases hfm : findMessage db r.messageId with _ | m
        · have hred : applyOp (.discard rid) db =
              { db with responses := db.responses.filter fun x => decide (x.id ≠ rid) } := by
            simp [applyOp, discardDraft, hfr, hsent, hfm]
          rw [hred]
          exact hInv
        · have hred : applyOp (.discard rid) db =
              { db with
                responses := db.responses.filter fun x => decide (x.id ≠ rid)
                messages := db.messages.map fun x =>
                  if x.id = m.id then { x with status := discardStatus db m.id rid }
                  else x } := by
            simp [applyOp, discardDraft, hfr, hsent, hfm]
          rw [hred]
          intro x hx hdir
          obtain ⟨y, hy, hf⟩ := List.mem_map.mp hx
          by_cases hcase : y.id = m.id
          · rw [if_pos hcase] at hf
            have hydir : y.direction = "inbound" := by
              have hyid : y.id = r.messageId := by
                rw [hcase, findMessage_id db r.messageId m hfm]
              exact hT r (findResponse_mem db rid r hfr)
                (findResponse_id db rid r hfr) y hy hyid
            have : y.direction = "outbound" := by
              rw [← hf] at hdir
              exact hdir
            rw [hydir] at this
            exact absurd this (by decide)
          · rw [if_neg hcase] at hf
            exact hInv x (hf ▸ hy) hdir
  | send rid fb cc env =>
    rcases hfr : findResponse db rid with _ | r
    · have hred : applyOp (.send rid fb cc env) db = db := by
        simp [applyOp, sendResponse, hfr]
      rw [hred]
      exact hInv
    · rcases hfm : findMessage db r.messageId with _ | m
      · have hred : applyOp (.send rid fb cc env) db = db := by
          simp [applyOp, sendResponse, hfr, hfm]
        rw [hred]
        exact hInv
      · have hred : applyOp (.send rid fb cc env) db = (sendCore db rid r m fb cc env).1 := by
          simp [applyOp, sendResponse, hfr, hfm]
        rw [hred]
        intro x hx hdir
        unfold sendCore at hx
        dsimp only at hx
        rcases sendAndRecord_messages _ _ _ _ with h | h
        · rw [h] at hx
          obtain ⟨y, hy, hf⟩ := List.mem_map.mp hx
          by_cases hcase : y.id = m.id
          · rw [if_pos hcase] at hf
            obtain ⟨q, hq⟩ := saveLearningData_eq { m with status := "sent" } cc
            rw [← hf, hq]
          · rw [if_neg hcase] at hf
            exact hInv x (hf ▸ hy) hdir
        · rw [h] at hx
          rcases List.mem_append.mp hx with hx | hx
          · obtain ⟨y, hy, hf⟩ := List.mem_map.mp hx
            by_cases hcase : y.id = m.id
            · rw [if_pos hcase] at hf
              obtain ⟨q, hq⟩ := saveLearningData_eq { m with status := "sent" } cc
              rw [← hf, hq]
            · rw [if_neg hcase] at hf
              exact hInv x (hf ▸ hy) hdir
          · rw [List.mem_singleton.mp hx]
            rfl
  | sendDir mid fb cc env =>
    rcases hfm : findMessage db mid with _ | m
    · have hred : applyOp (.sendDir mid fb cc env) db = db := by
        simp [applyOp, sendDirect, hfm]
      rw [hred]
      exact hInv
    · have hred : applyOp (.sendDir mid fb cc env) db = (sendDirectCore db m fb cc env).1 := by
        simp [applyOp, sendDirect, hfm]
      rw [hred]
      intro x hx hdir
      unfold sendDirectCore at hx
      dsimp only at hx
      rcases sendAndRecord_messages _ _ _ _ with h | h
      · rw [h] at hx
        obtain ⟨y, hy, hf⟩ := List.mem_map.mp hx
        by_cases hcase : y.id = m.id
        · rw [if_pos hcase] at hf
          obtain ⟨q, hq⟩ := saveLearningData_eq { m with status := "sent" } cc
          rw [← hf, hq]
        · rw [if_neg hcase] at hf
          exact hInv x (hf ▸ hy) hdir
      · rw [h] at hx
        rcases List.mem_append.mp hx with hx | hx
        · obtain ⟨y, hy, hf⟩ := List.mem_map.mp hx
          by_cases hcase : y.id = m.id
          · rw [if_pos hcase] at hf
            obtain ⟨q, hq⟩ := saveLearningData_eq { m with status := "sent" } cc
            rw [← hf, hq]
          · rw [if_neg hcase] at hf
            exact hInv x (hf ▸ hy) hdir
        · rw [List.mem_singleton.mp hx]
          rfl
  | handle mid =>
    rcases hfm : findMessage db mid with _ | m
    · have hred : applyOp (.handle mid) db = db := by
        simp [applyOp, markHandled, hfm]
      rw [hred]
      exact hInv
    · have hred : applyOp (.handle mid) db =
          { db with messages := db.messages.map (mhUpdate m mid) } := by
        simp [applyOp, markHandled, hfm]
      rw [hred]
      intro x hx hdir
      obtain ⟨y, hy, hf⟩ := List.mem_map.mp hx
      rw [mhUpdate_eq] at hf
      split at hf <;> rename_i hcond
      · rcases hcond with hcond | hcond
        · have hydir : y.direction = "inbound" := hT y hy hcond
          have : y.direction = "outbound" := by
            rw [← hf] at hdir
            exact hdir
          rw [hydir] at this
          exact absurd this (by decide)
        · have : y.direction = "outbound" := by
            rw [← hf] at hdir
            exact hdir
          rw [hcond.2.2.1] at this
          exact absurd this (by decide)
      · exact hInv x (hf ▸ hy) hdir
  | reopen mid =>
    rcases hfm : findMessage db mid with _ | m
    · have hred : applyOp (.reopen mid) db = db := by
        simp [applyOp, reopenMessage, hfm]
      rw [hred]
      exact hInv
    · have hred : applyOp (.reopen mid) db =
          { db with messages := db.messages.map fun x =>
              if x.id = mid then { x with status := "new" } else x } := by
        simp [applyOp, reopenMessage, hfm]
      rw [hred]
      intro x hx hdir
      obtain ⟨y, hy, hf⟩ := List.mem_map.mp hx
      by_cases hcase : y.id = mid
      · rw [if_pos hcase] at hf
        have hydir : y.direction = "inbound" := hT y hy hcase
        have : y.direction = "outbound" := by
          rw [← hf] at hdir
          exact hdir
        rw [hydir] at this
        exact absurd this (by decide)
      · rw [if_neg hcase] at hf
        exact hInv x (hf ▸ hy) hdir

/-- A store holding one outbound message, correctly `sent`. -/
def c2db : Db :=
  { accounts := [⟨1, "MORABLU", "amazon", true⟩]
    messages := [{ id := 1, accountId := 1, sender := "MORABLU",
                   direction := "outbound", status := "sent" }]
    responses := [] }

/-- Counterexample to C2 as stated: `reopen_message` has no direction
guard, so reopening the outbound message 1 sets its status to `new`,
violating "direction == outbound implies status == sent" right after a
public-interface operation. -/
theorem c2_counterexample :
    OutboundSent c2db ∧ ¬ OutboundSent (applyOp (Op.reopen 1) c2db) := by
  constructor
  · decide
  · decide

/-- A store with one inbound `new` message and one outbound `sent`
message. -/
def c2wdb : Db :=
  { accounts := [⟨1, "MORABLU", "amazon", true⟩]
    messages :=
      [{ id := 1, accountId := 1, sender := "alice", direction := "inbound",
         status := "new" },
       { id := 2, accountId := 1, sender := "MORABLU", direction := "outbound",
         status := "sent" }]
    responses := [] }

/-- Witness for the amended C2: marking the inbound message 1 handled
preserves the invariant. -/
theorem c2_outbound_sent_preserved_witness :
    OutboundSent (applyOp (Op.handle 1) c2wdb) :=
  c2_outbound_sent_preserved (Op.handle 1) c2wdb (by decide)
    (by unfold OpTargetsInbound; decide)

/-! ## Claim C6: ingestion idempotence -/

/-- An email is a no-op for a given store: its identifier is already
indexed, or it fails to parse, or (identifier-less) the fallback key
matches an existing record. -/
def SkipCond (msgs : List Message) (acct : Nat) (e : REmail) : Prop :=
  (e.msgId ≠ "" ∧ e.msgId ∈ existingIds msgs acct) ∨
  e.parsed = none ∨
  (e.msgId = "" ∧ FallbackDup msgs acct e)

lemma mem_existingIds (msgs : List Message) (acct : Nat) (m : Message)
    (hm : m ∈ msgs) (hacct : m.accountId = acct) (s : String)
    (hid : m.externalMessageId = some s) : s ∈ existingIds msgs acct := by
  unfold existingIds
  exact List.mem_filterMap.mpr ⟨m, hm, by rw [if_pos hacct, hid]⟩

lemma existingIds_mono (msgs t : List Message) (acct : Nat) (s : String)
    (h : s ∈ existingIds msgs acct) : s ∈ existingIds (msgs ++ t) acct := by
  unfold existingIds at h ⊢
  rw [List.filterMap_append]
  exact List.mem_append_left _ h

lemma FallbackDup_mono (msgs t : List Message) (acct : Nat) (e : REmail)
    (h : FallbackDup msgs acct e) : FallbackDup (msgs ++ t) acct e := by
  obtain ⟨m, hm, hrest⟩ := h
  exact ⟨m, List.mem_append_left _ hm, hrest⟩

lemma SkipCond_mono (msgs t : List Message) (acct : Nat) (e : REmail)
    (h : SkipCond msgs acct e) : SkipCond (msgs ++ t) acct e := by
  rcases h with ⟨h1, h2⟩ | h | ⟨h1, h2⟩
  · exact Or.inl ⟨h1, existingIds_mono msgs t acct _ h2⟩
  · exact Or.inr (Or.inl h)
  · exact Or.inr (Or.inr ⟨h1, FallbackDup_mono msgs t acct e h2⟩)

lemma storedMessage_accountId (acct : Nat) (an dir : String) (e : REmail)
    (p : ParsedEmail) (now nid : Nat) :
    (storedMessage acct an dir e p now nid).accountId = acct := by
  unfold storedMessage
  split <;> rfl

lemma storedMessage_extId (acct : Nat) (an dir : String) (e : REmail)
    (p : ParsedEmail) (now nid : Nat) :
    (storedMessage acct an dir e p now nid).externalMessageId =
      if e.msgId = "" then none else some e.msgId := by
  unfold storedMessage
  split <;> rfl

lemma storedMessage_receivedAt (acct : Nat) (an dir : String) (e : REmail)
    (p : ParsedEmail) (now nid : Nat) :
    (storedMessage acct an dir e p now nid).receivedAt = e.hdrDate.getD now := by
  unfold storedMessage
  split <;> rfl

lemma storedMessage_subject (acct : Nat) (an dir : String) (e : REmail)
    (p : ParsedEmail) (now nid : Nat) :
    (storedMessage acct an dir e p now nid).subject = some e.hdrSubject := by
  unfold storedMessage
  split <;> rfl

/-- A store containing the row persisted for an email satisfies the skip
condition for that email. -/
lemma storedMessage_skip (acct : Nat) (an dir : String) (e : REmail)
    (p : ParsedEmail) (now nid : Nat) (msgs : List Message)
    (hmem : storedMessage acct an dir e p now nid ∈ msgs) :
    SkipCond msgs acct e := by
  by_cases hid : e.msgId = ""
  · refine Or.inr (Or.inr ⟨hid, storedMessage acct an dir e p now nid, hmem,
      storedMessage_accountId .., ?_, ?_, ?_⟩)
    · rw [storedMessage_extId, if_pos hid]
    · intro d hd
      rw [storedMessage_receivedAt, hd]
      rfl
    · intro _
      rw [storedMessage_subject]
  · refine Or.inl ⟨hid, mem_existingIds msgs acct _ hmem (storedMessage_accountId ..)
      e.msgId ?_⟩
    rw [storedMessage_extId, if_neg hid]

/-- The step-2 loop only appends to its accumulator. -/
lemma processLoop_acc_extends (db0 : List Message) (acct : Nat) (an dir : String)
    (now : Nat) :
    ∀ (es : List REmail) (ex : List String) (acc : List Message) (f n nid : Nat),
      ∃ t, (processLoop db0 acct an dir now es ex acc f n nid).1 = acc ++ t := by
  intro es
  induction es with
  | nil =>
    intro ex acc f n nid
    exact ⟨[], (List.append_nil acc).symm⟩
  | cons e es ih =>
    intro ex acc f n nid
    unfold processLoop
    split
    · exact ih _ _ _ _ _
    · split
      · exact ih _ _ _ _ _
      · rcases hp : e.parsed with _ | p
        · exact ih _ _ _ _ _
        · dsimp only
          obtain ⟨t, ht⟩ := ih (if e.msgId = "" then ex else e.msgId :: ex)
            (acc ++ [storedMessage acct an dir e p now nid]) (f + 1) (n + 1) (nid + 1)
          exact ⟨storedMessage acct an dir e p now nid :: t, by
            rw [ht, List.append_assoc]
            rfl⟩

/-- After one loop run, every processed email satisfies the skip condition
for the committed store. -/
lemma processLoop_post (db0 : List Message) (acct : Nat) (an dir : String)
    (now : Nat) :
    ∀ (es : List REmail) (ex : List String) (acc : List Message) (f n nid : Nat),
      (∀ s ∈ ex, s ∈ existingIds (db0 ++ acc) acct) →
      ∀ e ∈ es,
        SkipCond (db0 ++ (processLoop db0 acct an dir now es ex acc f n nid).1) acct e := by
  intro es
  induction es with
  | nil =>
    intro ex acc f n nid _ e he
    cases he
  | cons e es ih =>
    intro ex acc f n nid hex e' he'
    unfold processLoop
    split <;> rename_i hg1
    · obtain ⟨t, ht⟩ := processLoop_acc_extends db0 acct an dir now es ex acc _ _ _
      rcases List.mem_cons.mp he' with h | h
      · subst h
        rw [ht, ← List.append_assoc]
        exact SkipCond_mono _ t acct e' (Or.inl ⟨hg1.1, hex _ hg1.2⟩)
      · exact ih _ _ _ _ _ hex e' h
    · split <;> rename_i hg2
      · obtain ⟨t, ht⟩ := processLoop_acc_extends db0 acct an dir now es ex acc _ _ _
        rcases List.mem_cons.mp he' with h | h
        · subst h
          rw [ht, ← List.append_assoc]
          refine SkipCond_mono _ t acct e' (Or.inr (Or.inr ⟨hg2.1, ?_⟩))
          exact FallbackDup_mono db0 acc acct e' hg2.2
        · exact ih _ _ _ _ _ hex e' h
      · rcases hp : e.parsed with _ | p
        · rcases List.mem_cons.mp he' with h | h
          · subst h
            exact Or.inr (Or.inl hp)
          · exact ih _ _ _ _ _ hex e' h
        · dsimp only
          have hex' : ∀ s ∈ (if e.msgId = "" then ex else e.msgId :: ex),
              s ∈ existingIds (db0 ++ (acc ++ [storedMessage acct an dir e p now nid]))
                acct := by
            intro s hs
            rw [← List.append_assoc]
            by_cases hid : e.msgId = ""
            · rw [if_pos hid] at hs
              exact existingIds_mono _ _ acct s (hex s hs)
            · rw [if_neg hid] at hs
              rcases List.mem_cons.mp hs with h | h
              · subst h
                refine mem_existingIds _ acct (storedMessage acct an dir e p now nid)
                  (List.mem_append_right _ (List.mem_singleton_self _))
                  (storedMessage_accountId _ _ _ _ _ _ _) e.msgId ?_
                rw [storedMessage_extId, if_neg hid]
              · exact existingIds_mono _ _ acct s (hex s h)
          rcases List.mem_cons.mp he' with h | h
          · obtain ⟨t, ht⟩ := processLoop_acc_extends db0 acct an dir now es
              (if e.msgId = "" then ex else e.msgId :: ex)
              (acc ++ [storedMessage acct an dir e p now nid]) (f + 1) (n + 1) (nid + 1)
            rw [ht, h]
            refine storedMessage_skip acct an dir e p now nid _ ?_
            rw [← List.append_assoc, ← List.append_assoc]
            exact List.mem_append_left _
              (List.mem_append_right _ (List.mem_singleton_self _))
          · exact ih _ _ _ _ _ hex' e' h

/-- When every email is a no-op for the snapshot, the loop changes
nothing. -/
lemma processLoop_skip_all (db0 : List Message) (acct : Nat) (an dir : String)
    (now : Nat) :
    ∀ (es : List REmail) (ex : List String) (acc : List Message) (f n nid : Nat),
      (∀ e ∈ es, e.parsed = none ∨ (e.msgId = "" ∧ FallbackDup db0 acct e)) →
      processLoop db0 acct an dir now es ex acc f n nid = (acc, f, n, nid) := by
  intro es
  induction es with
  | nil =>
    intro ex acc f n nid _
    rfl
  | cons e es ih =>
    intro ex acc f n nid h
    have he := h e (List.mem_cons_self e es)
    have hes := fun e' he' => h e' (List.mem_cons_of_mem e he')
    unfold processLoop
    split
    · exact ih _ _ _ _ _ hes
    · split <;> rename_i hg2
      · exact ih _ _ _ _ _ hes
      · rcases he with he | he
        · rw [he]
          exact ih _ _ _ _ _ hes
        · exact absurd he hg2

/-- C6.  Re-running one ingestion pass (`_process_emails`) against the
unchanged mailbox persists nothing: `new_count = 0` and the store is
unchanged — both for emails carrying a `Message-ID` and for emails
without one, which the fallback key (account, null identifier, received
timestamp, subject) deduplicates. -/
theorem c6_ingest_idempotent (msgs : List Message) (acct : Nat) (an dir : String)
    (emails : List REmail) (now1 nid1 now2 nid2 : Nat) :
    (processEmails (processEmails msgs acct an dir emails now1 nid1).db
        acct an dir emails now2 nid2).newCount = 0 ∧
    (processEmails (processEmails msgs acct an dir emails now1 nid1).db
        acct an dir emails now2 nid2).db =
      (processEmails msgs acct an dir emails now1 nid1).db := by
  have hpost : ∀ e ∈ emails,
      SkipCond (processEmails msgs acct an dir emails now1 nid1).db acct e := by
    intro e he
    by_cases hdrop : e.msgId ≠ "" ∧ e.msgId ∈ existingIds msgs acct
    · -- dropped by the header prefilter of run 1
      have : (processEmails msgs acct an dir emails now1 nid1).db =
          msgs ++ (processLoop msgs acct an dir now1
            (headerPrefilter (existingIds msgs acct) emails)
            (existingIds msgs acct) [] 0 0 nid1).1 := rfl
      rw [this]
      exact Or.inl ⟨hdrop.1, existingIds_mono msgs _ acct _ hdrop.2⟩
    · -- survived into step 2 of run 1
      have hsurv : e ∈ headerPrefilter (existingIds msgs acct) emails := by
        unfold headerPrefilter
        refine List.mem_filter.mpr ⟨he, ?_⟩
        simp only [Bool.not_eq_true', Bool.and_eq_false_iff, decide_eq_false_iff_not]
        by_cases h1 : e.msgId = ""
        · left
          simp [h1]
        · right
          intro h2
          exact hdrop ⟨h1, h2⟩
      have hex : ∀ s ∈ existingIds msgs acct,
          s ∈ existingIds (msgs ++ ([] : List Message)) acct := by
        intro s hs
        rw [List.append_nil]
        exact hs
      exact processLoop_post msgs acct an dir now1 _ _ _ _ _ _ hex e hsurv
  -- run 2: every email is skipped
  have hskip : ∀ e ∈ headerPrefilter
      (existingIds (processEmails msgs acct an dir emails now1 nid1).db acct) emails,
      e.parsed = none ∨ (e.msgId = "" ∧
        FallbackDup (processEmails msgs acct an dir emails now1 nid1).db acct e) := by
    intro e he
    have hkeep := (List.mem_filter.mp he).2
    have hmem := (List.mem_filter.mp he).1
    rcases hpost e hmem with ⟨h1, h2⟩ | h | h
    · exfalso
      simp only [Bool.not_eq_true', Bool.and_eq_false_iff,
        decide_eq_false_iff_not] at hkeep
      rcases hkeep with hk | hk
      · rw [not_not] at hk
        exact h1 hk
      · exact hk h2
    · exact Or.inl h
    · exact Or.inr h
  have hloop := processLoop_skip_all
    (processEmails msgs acct an dir emails now1 nid1).db acct an dir now2
    (headerPrefilter
      (existingIds (processEmails msgs acct an dir emails now1 nid1).db acct) emails)
    (existingIds (processEmails msgs acct an dir emails now1 nid1).db acct)
    [] 0 0 nid2 hskip
  constructor
  · show (processLoop _ _ _ _ _ _ _ _ _ _ _).2.2.1 = 0
    rw [hloop]
  · show _ ++ (processLoop _ _ _ _ _ _ _ _ _ _ _).1 = _
    rw [hloop]
    exact List.append_nil _

/-! ## Claim C8: the unconfirmed order-status marker

The prompt-assembly side of the claim holds: with no order id the prompt
handed to the generation model carries an explicit 【未確認】 (unconfirmed)
order-status block instead of omitting the section.  The success side of
the claim is broken in this revision (see the C8 verdict): the endpoint
destructures the generator result as a dict although `generate_draft`
returns a bare string, and sets `input_tokens`/`output_tokens`/`model_used`
columns that the `AiResponse` model does not declare, so the endpoint
raises on every call before persisting anything. -/

/-- C8 (prompt side).  For a message with no order identifier (and no
product identifier), the success path of `generate_response` hands the
generation model a prompt containing the explicit unconfirmed order-status
marker rather than omitting the order-status section. -/
theorem c8_prompt_unconfirmed (db : Db) (mid : Nat) (m : Message)
    (ofetch : String → OrderInfo) (plookup : Option ProductView)
    (pp pc : List PastResponse) (qa : List QaTemplateView)
    (g : GenResult) (nrid : Nat)
    (hm : findMessage db mid = some m)
    (h1 : m.externalOrderId = none) (_h2 : m.asin = none) :
    ∃ dbOut pre post,
      generateResponse db mid ofetch plookup pp pc qa (some g) nrid =
        Except.ok (dbOut, genResp m g nrid,
          pre ++ ("\n注文ステータス: 【未確認】" ++
            "\n※注文の状態が確認できていません。発送済み・未発送などの断定はしないでください。") ++
            post) := by
  refine ⟨genCore db m plookup g nrid,
    promptHeader m.body m.subject m.externalOrderId m.asin (genTitle m plookup)
        (some (genCategory m)) ++ "\n\n===== 注文情報 =====",
    productSection (genProductText m plookup) ++
      (pastProductSection pp ++ (qaSection qa ++ (pastCategorySection pc ++
        "\n\n上記を踏まえて、お客様への回答案を作成してください。"))), ?_⟩
  have hord : genOrderText m ofetch = none := by
    unfold genOrderText
    rw [h1]
  have hsec : orderSection (genOrderText m ofetch) =
      "\n\n===== 注文情報 =====" ++
        ("\n注文ステータス: 【未確認】" ++
          "\n※注文の状態が確認できていません。発送済み・未発送などの断定はしないでください。") := by
    rw [hord]
    rfl
  simp only [generateResponse, hm, genPrompt, buildUserContent, hsec,
    String.append_assoc]

/-- A message with neither an order id nor an ASIN. -/
def c8msg : Message :=
  { id := 1, accountId := 1, sender := "alice", direction := "inbound",
    status := "new", body := "こんにちは" }

def c8db : Db :=
  { accounts := [⟨1, "MORABLU", "amazon", true⟩], messages := [c8msg],
    responses := [] }

/-- Witness for C8 (prompt side) at a concrete message with no order id
and no ASIN. -/
theorem c8_prompt_unconfirmed_witness :
    ∃ dbOut pre post,
      generateResponse c8db 1 (fun o => { orderId := o }) none [] [] []
          (some { text := "回答案" }) 7 =
        Except.ok (dbOut, genResp c8msg { text := "回答案" } 7,
          pre ++ ("\n注文ステータス: 【未確認】" ++
            "\n※注文の状態が確認できていません。発送済み・未発送などの断定はしないでください。") ++
            post) :=
  c8_prompt_unconfirmed c8db 1 c8msg (fun o => { orderId := o }) none [] [] []
    { text := "回答案" } 7 rfl rfl rfl

/-! ## Claim C1 (amended): send collapses the unsent drafts -/

/-- C1 as amended.  Send and Send-direct delete every *unsent* other
AiResponse of the Message, so afterwards the targeted (or newly created)
record is sent and no unsent AiResponse remains for the Message; when no
sent AiResponse existed beforehand, the targeted record is the unique
remaining response of the Message.  Previously sent AiResponses survive
the operation (see the counterexample for the original claim). -/
theorem c1_send_collapses_unsent (db : Db) (rid mid : Nat) (fb fd : String)
    (cc cd : Option String) (env envd : SendEnv) (r : AiResponse) (m md : Message)
    (hr : findResponse db rid = some r)
    (hm : findMessage db r.messageId = some m)
    (hmd : findMessage db mid = some md) :
    (∃ dbOut, sendResponse db rid fb cc env = Except.ok (dbOut, sentResp r fb env.now) ∧
      (∀ x ∈ dbOut.responses, x.messageId = m.id → x.isSent = true) ∧
      (∀ x ∈ dbOut.responses, x.id = rid → x = sentResp r fb env.now) ∧
      (∀ y ∈ db.responses, y.messageId = m.id → y.isSent = true → y.id ≠ rid →
        y ∈ dbOut.responses) ∧
      ((∀ y ∈ db.responses, y.messageId = m.id → y.id ≠ rid → y.isSent = false) →
        ∀ x ∈ dbOut.responses, x.messageId = m.id → x.id = rid)) ∧
    (∃ dbOut, sendDirect db mid fd cd envd = Except.ok (dbOut, directResp md fd envd) ∧
      (∀ x ∈ dbOut.responses, x.messageId = md.id → x.isSent = true) ∧
      directResp md fd envd ∈ dbOut.responses ∧
      (∀ y ∈ db.responses, y.messageId = md.id → y.isSent = true → y ∈ dbOut.responses) ∧
      ((∀ y ∈ db.responses, y.messageId = md.id → y.isSent = false) →
        ∀ x ∈ dbOut.responses, x.messageId = md.id → x = directResp md fd envd)) := by
  have hrid := findResponse_id db rid r hr
  constructor
  · refine ⟨(sendCore db rid r m fb cc env).1, by simp only [sendResponse, hr, hm]; rfl,
      ?_, ?_, ?_, ?_⟩ <;>
      [skip; skip; skip; skip] <;>
      unfold sendCore <;> dsimp only <;> rw [sendAndRecord_responses] <;>
      unfold sendResponses2
    · intro x hx hmid
      simp only [List.mem_filter, decide_eq_true_eq] at hx
      obtain ⟨hx', hkeep⟩ := hx
      by_cases hcase : x.id = rid
      · obtain ⟨y, hy, hf⟩ := List.mem_map.mp hx'
        by_cases hyc : y.id = rid
        · rw [if_pos hyc] at hf
          rw [← hf]
          rfl
        · rw [if_neg hyc] at hf
          exact absurd (hf ▸ hcase) hyc
      · by_contra hsent
        exact hkeep ⟨hmid, hcase, Bool.not_eq_true _ ▸ hsent⟩
    · intro x hx hid
      have hx' := List.mem_of_mem_filter hx
      obtain ⟨y, hy, hf⟩ := List.mem_map.mp hx'
      by_cases hcase : y.id = rid
      · rw [if_pos hcase] at hf
        exact hf.symm
      · rw [if_neg hcase] at hf
        exact absurd (hf ▸ hid) hcase
    · intro y hy hmid hsent hne
      simp only [List.mem_filter, decide_eq_true_eq]
      refine ⟨List.mem_map.mpr ⟨y, hy, by rw [if_neg hne]⟩, ?_⟩
      rintro ⟨-, -, hfalse⟩
      rw [hsent] at hfalse
      cases hfalse
    · intro hnosent x hx hmid
      simp only [List.mem_filter, decide_eq_true_eq] at hx
      obtain ⟨hx', hkeep⟩ := hx
      by_contra hne
      obtain ⟨y, hy, hf⟩ := List.mem_map.mp hx'
      by_cases hyc : y.id = rid
      · rw [if_pos hyc] at hf
        have : x.id = rid := by rw [← hf]; exact hrid
        exact hne this
      · rw [if_neg hyc] at hf
        subst hf
        exact hkeep ⟨hmid, hne, hnosent y hy hmid hne⟩
  · refine ⟨(sendDirectCore db md fd cd envd).1, by simp only [sendDirect, hmd]; rfl,
      ?_, ?_, ?_, ?_⟩ <;>
      [skip; skip; skip; skip] <;>
      unfold sendDirectCore <;> dsimp only <;> rw [sendAndRecord_responses] <;>
      unfold directResponses2
    · intro x hx hmid
      rcases List.mem_append.mp hx with hx | hx
      · simp only [List.mem_filter, decide_eq_true_eq] at hx
        obtain ⟨-, hkeep⟩ := hx
        by_contra hsent
        exact hkeep ⟨hmid, Bool.not_eq_true _ ▸ hsent⟩
      · rw [List.mem_singleton.mp hx]
        rfl
    · exact List.mem_append_right _ (List.mem_singleton_self _)
    · intro y hy hmid hsent
      refine List.mem_append_left _ ?_
      simp only [List.mem_filter, decide_eq_true_eq]
      refine ⟨hy, ?_⟩
      rintro ⟨-, hfalse⟩
      rw [hsent] at hfalse
      cases hfalse
    · intro hnosent x hx hmid
      rcases List.mem_append.mp hx with hx | hx
      · simp only [List.mem_filter, decide_eq_true_eq] at hx
        obtain ⟨hmem, hkeep⟩ := hx
        exact absurd ⟨hmid, hnosent x hmem hmid⟩ hkeep
      · exact List.mem_singleton.mp hx

/-- A message that already has a *sent* AiResponse (id 10) plus a fresh
unsent draft (id 11). -/
def c1msg : Message :=
  { id := 1, accountId := 1, sender := "alice", direction := "inbound",
    status := "sent", replyToAddress := none }

def c1db : Db :=
  { accounts := [⟨1, "MORABLU", "amazon", true⟩], messages := [c1msg],
    responses :=
      [{ id := 10, messageId := 1, draftBody := "old", finalBody := some "old-f",
         isSent := true, sentAt := some 5 },
       { id := 11, messageId := 1, draftBody := "new" }] }

def c1env : SendEnv := ⟨50, false, 99, 98⟩

/-- The store after sending draft 11 of `c1db`. -/
def c1after : Db :=
  match sendResponse c1db 11 "fixed" none c1env with
  | .ok p => p.1
  | .error _ => c1db

/-- Counterexample to C1 as stated: sending draft 11 of a message that
already has the sent response 10 succeeds and leaves *two* AiResponses
with `is_sent = true` for that message — the stale-draft cleanup deletes
only unsent drafts, so "at most one sent at any time" and "afterwards
exactly the targeted record is sent" are false when a sent response
already existed. -/
theorem c1_counterexample :
    (sendResponse c1db 11 "fixed" none c1env).isOk = true ∧
    c1after.responses.countP (fun x => x.isSent && decide (x.messageId = 1)) = 2 := by
  constructor
  · rfl
  · rfl

/-- Spec §8 send-direct scenario: a message with two prior unsent drafts. -/
def c1wmsg : Message :=
  { id := 1, accountId := 1, sender := "alice", direction := "inbound",
    status := "ai_drafted", replyToAddress := none }

def c1wdb : Db :=
  { accounts := [⟨1, "MORABLU", "amazon", true⟩], messages := [c1wmsg],
    responses :=
      [{ id := 20, messageId := 1, draftBody := "d1" },
       { id := 21, messageId := 1, draftBody := "d2" }] }

def c1wenv : SendEnv := ⟨60, false, 99, 30⟩

def c1wpost : Db :=
  { accounts := [⟨1, "MORABLU", "amazon", true⟩]
    messages :=
      [{ id := 1, accountId := 1, sender := "alice", direction := "inbound",
         status := "sent", replyToAddress := none }]
    responses := [directResp c1wmsg "direct" c1wenv] }

/-- Witness for the amended C1: send-direct on a message with two prior
unsent drafts leaves exactly one surviving AiResponse — the new sent
one. -/
theorem c1_send_collapses_unsent_witness :
    ∃ dbOut, sendDirect c1wdb 1 "direct" none c1wenv =
        Except.ok (dbOut, directResp c1wmsg "direct" c1wenv) ∧
      (∀ x ∈ dbOut.responses, x.messageId = 1 → x = directResp c1wmsg "direct" c1wenv) ∧
      dbOut.responses.length = 1 := by
  obtain ⟨-, hdir⟩ :=
    c1_send_collapses_unsent c1wdb 20 1 "fb" "direct" none none c1wenv c1wenv
      { id := 20, messageId := 1, draftBody := "d1" } c1wmsg c1wmsg rfl rfl rfl
  obtain ⟨dbOut, heq, -, -, -, huniq⟩ := hdir
  have hpost : sendDirect c1wdb 1 "direct" none c1wenv =
      Except.ok (c1wpost, directResp c1wmsg "direct" c1wenv) := rfl
  rw [heq] at hpost
  injection hpost with hpair
  have hdb : dbOut = c1wpost := congrArg Prod.fst hpair
  subst hdb
  exact ⟨c1wpost, heq, huniq (by decide), by decide⟩

/-! ## Claim C4: thread representative -/

lemma listedMessages_sorted (msgs : List Message) :
    (listedMessages msgs).Sorted recvGE :=
  List.sorted_insertionSort recvGE _

lemma threadOf_sorted (msgs : List Message) (k : Nat × String) :
    (threadOf (listedMessages msgs) k).Sorted recvGE :=
  List.Pairwise.sublist (List.filter_sublist _) (listedMessages_sorted msgs)

lemma mem_threadKeys (l : List Message) (m : Message) (hm : m ∈ l) :
    (m.accountId, m.sender) ∈ threadKeys l := by
  unfold threadKeys
  suffices h : ∀ (l' : List Message) (acc : List (Nat × String)),
      ((m.accountId, m.sender) ∈ acc ∨ m ∈ l') →
      (m.accountId, m.sender) ∈ l'.foldl (fun ks x =>
        if (x.accountId, x.sender) ∈ ks then ks else ks ++ [(x.accountId, x.sender)]) acc by
    exact h l [] (Or.inr hm)
  intro l'
  induction l' with
  | nil =>
    intro acc h
    rcases h with h | h
    · exact h
    · cases h
  | cons x xs ih =>
    intro acc h
    rw [List.foldl_cons]
    apply ih
    rcases h with h | h
    · left
      split
      · exact h
      · exact List.mem_append_left _ h
    · rcases List.mem_cons.mp h with h | h
      · left
        subst h
        split <;> rename_i hin
        · exact hin
        · exact List.mem_append_right _ (List.mem_singleton_self _)
      · exact Or.inr h

/-- When the group has no `new` member, the representative is the head of
the (descending) scan order. -/
lemma representative_of_no_new (g : List Message) (a : Message) (t : List Message)
    (hfil : g.filter (fun m => decide (m.status = "new")) = [])
    (hgc : g = a :: t) :
    representative g = some a := by
  unfold representative
  rw [hfil, hgc]
  rfl

/-- When the group has a `new` member, the representative is the first
`new` member in scan order. -/
lemma representative_of_new (g : List Message) (n : Message) (rest : List Message)
    (hfil : g.filter (fun m => decide (m.status = "new")) = n :: rest) :
    representative g = some n := by
  unfold representative
  rw [hfil]

/-- C4 as amended.  For a non-empty thread group the representative shown
by the listing is the *most recently* received member still in `new`
status, else the most recently received member of the group; it appears in
the listing output. -/
theorem c4_representative_latest (msgs : List Message) (k : Nat × String)
    (hne : threadOf (listedMessages msgs) k ≠ []) :
    ∃ rep, representative (threadOf (listedMessages msgs) k) = some rep ∧
      rep ∈ threadOf (listedMessages msgs) k ∧
      rep ∈ listMessages msgs ∧
      ((∃ x ∈ threadOf (listedMessages msgs) k, x.status = "new") →
        rep.status = "new" ∧
        ∀ x ∈ threadOf (listedMessages msgs) k, x.status = "new" →
          x.receivedAt ≤ rep.receivedAt) ∧
      ((∀ x ∈ threadOf (listedMessages msgs) k, x.status ≠ "new") →
        ∀ x ∈ threadOf (listedMessages msgs) k, x.receivedAt ≤ rep.receivedAt) := by
  have hgs : (threadOf (listedMessages msgs) k).Sorted recvGE := threadOf_sorted msgs k
  have hkeys : ∀ rep, rep ∈ threadOf (listedMessages msgs) k →
      representative (threadOf (listedMessages msgs) k) = some rep →
      rep ∈ listMessages msgs := by
    intro rep hrepg hrep
    have hmeml : rep ∈ listedMessages msgs := List.mem_of_mem_filter hrepg
    have hkey : rep.accountId = k.1 ∧ rep.sender = k.2 := by
      have := List.mem_filter.mp hrepg
      simpa using this.2
    have hk : k ∈ threadKeys (listedMessages msgs) := by
      have := mem_threadKeys (listedMessages msgs) rep hmeml
      rw [hkey.1, hkey.2] at this
      exact this
    unfold listMessages
    exact List.mem_filterMap.mpr ⟨k, hk, hrep⟩
  rcases hfil : (threadOf (listedMessages msgs) k).filter
      (fun m => decide (m.status = "new")) with _ | ⟨n, rest⟩
  · -- no `new` member: the representative is the head of the group
    obtain ⟨a, t, hgc⟩ := List.exists_cons_of_ne_nil hne
    have hrep := representative_of_no_new _ a t hfil hgc
    have hag : a ∈ threadOf (listedMessages msgs) k := hgc ▸ List.mem_cons_self a t
    refine ⟨a, hrep, hag, hkeys a hag hrep, ?_, ?_⟩
    · rintro ⟨x, hx, hxnew⟩
      have : x ∈ (threadOf (listedMessages msgs) k).filter
          (fun m => decide (m.status = "new")) :=
        List.mem_filter.mpr ⟨hx, by simpa using hxnew⟩
      rw [hfil] at this
      cases this
    · intro _ x hx
      have hx' : x ∈ a :: t := hgc ▸ hx
      have hgs' : (a :: t).Sorted recvGE := hgc ▸ hgs
      rcases List.mem_cons.mp hx' with h | h
      · exact h ▸ Nat.le_refl _
      · exact List.rel_of_sorted_cons hgs' x h
  · -- some `new` member: the representative is the first of the new sublist
    have hrep := representative_of_new _ n rest hfil
    have hnfil : n ∈ (threadOf (listedMessages msgs) k).filter
        (fun m => decide (m.status = "new")) :=
      hfil ▸ List.mem_cons_self n rest
    have hng : n ∈ threadOf (listedMessages msgs) k := List.mem_of_mem_filter hnfil
    have hnnew : n.status = "new" := by
      have := (List.mem_filter.mp hnfil).2
      simpa using this
    refine ⟨n, hrep, hng, hkeys n hng hrep, ?_, ?_⟩
    · intro _
      refine ⟨hnnew, ?_⟩
      intro x hx hxnew
      have hxfil : x ∈ (threadOf (listedMessages msgs) k).filter
          (fun m => decide (m.status = "new")) :=
        List.mem_filter.mpr ⟨hx, by simpa using hxnew⟩
      have hsortfil : ((threadOf (listedMessages msgs) k).filter
          (fun m => decide (m.status = "new"))).Sorted recvGE :=
        List.Pairwise.sublist (List.filter_sublist _) hgs
      rw [hfil] at hxfil hsortfil
      rcases List.mem_cons.mp hxfil with h | h
      · exact h ▸ Nat.le_refl _
      · exact List.rel_of_sorted_cons hsortfil x h
    · intro hnone
      exact absurd hnnew (hnone n hng)

/-- Two `new` inbound messages from the same customer, received at 100 and
200. -/
def c4a : Message :=
  { id := 1, accountId := 1, sender := "alice", direction := "inbound",
    status := "new", receivedAt := 100 }

def c4b : Message :=
  { id := 2, accountId := 1, sender := "alice", direction := "inbound",
    status := "new", receivedAt := 200 }

def c4msgs : List Message := [c4a, c4b]

/-- Counterexample to C4 as stated: the earliest-received `new` member of
the group is `c4a` (received 100), but the listing's representative is
`c4b` (received 200) — the code picks the *latest* `new` message
(`new_msgs[0]` of the descending-ordered scan), not the earliest. -/
theorem c4_counterexample :
    representative (threadOf (listedMessages c4msgs) (1, "alice")) = some c4b ∧
    c4a ∈ threadOf (listedMessages c4msgs) (1, "alice") ∧
    c4a.status = "new" ∧ c4a.receivedAt < c4b.receivedAt ∧ c4b ≠ c4a := by
  refine ⟨rfl, by decide, rfl, by decide, by decide⟩

/-- Witness for the amended C4: on `c4msgs` the representative is the most
recently received `new` member. -/
theorem c4_representative_latest_witness :
    ∃ rep, representative (threadOf (listedMessages c4msgs) (1, "alice")) = some rep ∧
      rep.status = "new" ∧
      ∀ x ∈ threadOf (listedMessages c4msgs) (1, "alice"), x.status = "new" →
        x.receivedAt ≤ rep.receivedAt := by
  obtain ⟨rep, hrep, -, -, hnew, -⟩ :=
    c4_representative_latest c4msgs (1, "alice") (by decide)
  obtain ⟨hstat, hbound⟩ := hnew ⟨c4b, by decide, rfl⟩
  exact ⟨rep, hrep, hstat, hbound⟩

/-- Witness for C9: the 3-day-old entry is looked up from cache with zero
collaborator calls, and at 10 days with a failing collaborator the stale
entry is still returned. -/
theorem c9_cache_fresh_and_stale_witness :
    getProductInfo (some c9entry) "B0EXAMPLE01" (1000 + 3 * 86400) none =
      (some (toDict c9entry), some c9entry, 0) ∧
    getProductInfo (some c9entry) "B0EXAMPLE01" (1000 + 10 * 86400) none =
      (some (toDict c9entry), some c9entry, 1) := by
  have h := c9_cache_fresh_and_stale c9entry "B0EXAMPLE01"
    (1000 + 3 * 86400) (1000 + 3 * 86400) (1000 + 10 * 86400)
    none none (by decide) (by decide)
  exact ⟨h.1.1, h.2 (by decide)⟩

end Morablu
